import Mathlib

/-!
Verification of the receipt-processing core: a shallow embedding of the
multi-backend OCR orchestrator (`MultiOCRService.processImage`) and of the
extraction engine (`OCRService.parseMarkdown` and its helpers) together with
theorems settling the specification claims.

Modelling conventions:
* JavaScript numbers are modelled as `Rat`.  A `parseFloat`/`parseInt`
  result of NaN is modelled as `Option.none` at the parse boundary; the two
  assignment sites that would store NaN directly are mapped to a default and
  carry a comment.  Division is `Rat` division (division by zero yields `0`
  in the model; in the source it yields `Infinity` and is reachable only
  when a parsed quantity is `0`).
* JavaScript truthiness: a string is falsy iff empty, a number is falsy iff
  it is `0` (or NaN).
* Regular expressions: every quantifier appearing in the source applies to a
  single character class, so patterns are embedded as lists of elements over
  character classes and matched by an exact backtracking matcher
  (leftmost start, greedy or lazy per element, alternatives in order).
-/

namespace ReceiptProc

/-! ## JavaScript string and number primitives -/

/-- `String.prototype.toLowerCase` restricted to the characters the source
texts use: ASCII plus the German umlauts. -/
def jsLower (c : Char) : Char :=
  if c = 'Ä' then 'ä' else if c = 'Ö' then 'ö' else if c = 'Ü' then 'ü' else c.toLower

/-- `String.prototype.toUpperCase` restricted likewise. -/
def jsUpper (c : Char) : Char :=
  if c = 'ä' then 'Ä' else if c = 'ö' then 'Ö' else if c = 'ü' then 'Ü' else c.toUpper

/-- Lower-case an entire string. -/
def jsLowerStr (s : String) : String := String.mk (s.data.map jsLower)

/-- Upper-case an entire string. -/
def jsUpperStr (s : String) : String := String.mk (s.data.map jsUpper)

/-- Is `needle` a contiguous sub-list of `hay`? -/
def isSubList (needle : List Char) : List Char → Bool
  | [] => needle.isEmpty
  | c :: t => needle.isPrefixOf (c :: t) || isSubList needle t

/-- `String.prototype.includes`. -/
def jsIncludes (s sub : String) : Bool := isSubList sub.data s.data

/-- `String.prototype.trim` (drop whitespace on both ends). -/
def jsTrim (s : String) : String :=
  String.mk (((s.data.dropWhile Char.isWhitespace).reverse.dropWhile Char.isWhitespace).reverse)

/-- `String.prototype.startsWith`. -/
def jsStartsWith (s p : String) : Bool := p.data.isPrefixOf s.data

/-- Split at every occurrence of a single separator character (the two
`split` calls of the source use `'\n'` and `'|'`). -/
def splitCharGo (sep : Char) : List Char → List Char → List String
  | [], cur => [String.mk cur.reverse]
  | c :: t, cur =>
    if c = sep then String.mk cur.reverse :: splitCharGo sep t []
    else splitCharGo sep t (c :: cur)

/-- `s.split(sep)` for a one-character separator. -/
def jsSplitChar (s : String) (sep : Char) : List String :=
  splitCharGo sep s.data []

/-- `columns.join(" | ")`. -/
def jsJoinPipe : List String → String
  | [] => ""
  | [x] => x
  | x :: t => x ++ " | " ++ jsJoinPipe t

/-- Digit-list value, most significant first. -/
def digitsVal (ds : List Char) : Nat :=
  ds.foldl (fun a c => a * 10 + (c.toNat - 48)) 0

/-! Arithmetic on `Rat` through `mkRat`, so that every concrete run of the
model reduces inside the kernel; each operation is proved equal to the
standard one below (`ratAdd_eq` and friends). -/

/-- Addition on `Rat` via `mkRat`. -/
def ratAdd (a b : Rat) : Rat :=
  mkRat (a.num * b.den + b.num * a.den) (a.den * b.den)

/-- Multiplication on `Rat` via `mkRat`. -/
def ratMul (a b : Rat) : Rat :=
  mkRat (a.num * b.num) (a.den * b.den)

/-- Inverse on `Rat` via `Rat.divInt`. -/
def ratInv (a : Rat) : Rat := Rat.divInt a.den a.num

/-- Division on `Rat`. -/
def ratDiv (a b : Rat) : Rat := ratMul a (ratInv b)

/-- `10 ^ k` as a `Rat`. -/
def pow10 (k : Nat) : Rat := mkRat (Int.ofNat (10 ^ k)) 1

/-- `10 ^ e` for an integer exponent. -/
def powZ (e : Int) : Rat :=
  if e < 0 then ratInv (pow10 e.natAbs) else pow10 e.natAbs

/-- `parseInt(s)` (radix 10; the `0x` form never arises in this pipeline):
skips leading whitespace, consumes an optional sign and a maximal digit run;
`none` models NaN. -/
def jsParseInt (s : String) : Option Int :=
  let cs := s.data.dropWhile (·.isWhitespace)
  let sgn : Int := if cs.head? = some '-' then -1 else 1
  let cs := if cs.head? = some '-' ∨ cs.head? = some '+' then cs.tail else cs
  let ds := cs.takeWhile (·.isDigit)
  if ds.isEmpty then none else some (sgn * (digitsVal ds : Int))

/-- Optional leading sign of a `parseFloat` literal. -/
def parseSign : List Char → Rat × List Char
  | [] => (1, [])
  | c :: t =>
    if c = '-' then (-1, t)
    else if c = '+' then (1, t)
    else (1, c :: t)

/-- Optional fraction part: digits after a leading dot, with the
remainder. -/
def parseFrac : List Char → List Char × List Char
  | [] => ([], [])
  | c :: t =>
    if c = '.' then (t.takeWhile (·.isDigit), t.dropWhile (·.isDigit)) else ([], c :: t)

/-- Optional integer exponent after `e`/`E` (absent or digitless gives
zero). -/
def parseExpo : List Char → Int
  | [] => 0
  | c :: t =>
    if c = 'e' ∨ c = 'E' then
      let esgn : Int := if t.head? = some '-' then -1 else 1
      let t2 := if t.head? = some '-' ∨ t.head? = some '+' then t.tail else t
      let eds := t2.takeWhile (·.isDigit)
      if eds.isEmpty then 0 else esgn * (digitsVal eds : Int)
    else 0

/-- `parseFloat(s)`: optional sign, integer digits, optional fraction,
optional exponent; `none` models NaN.  (The textual forms `Infinity`/`0x…`
never arise from this pipeline and are left out of the model.) -/
def jsParseFloat (s : String) : Option Rat :=
  let cs := s.data.dropWhile (·.isWhitespace)
  let sgn := (parseSign cs).1
  let cs1 := (parseSign cs).2
  let ip := cs1.takeWhile (·.isDigit)
  let cs2 := cs1.dropWhile (·.isDigit)
  let fp := (parseFrac cs2).1
  let cs3 := (parseFrac cs2).2
  if ip.isEmpty ∧ fp.isEmpty then none
  else
    some (ratMul
      (ratMul sgn (ratAdd (digitsVal ip : Rat) (ratDiv (digitsVal fp : Rat) (pow10 fp.length))))
      (powZ (parseExpo cs3)))

/-- `s.replace(',', '.')` — only the first comma is replaced. -/
def replaceFirstComma : List Char → List Char
  | [] => []
  | c :: t => if c = ',' then '.' :: t else c :: replaceFirstComma t

/-- `s.replace(/[€€\s]/g, '')` — both characters of the class are U+20AC in
the source, so this removes euro signs and whitespace. -/
def removeEuroWs (s : String) : String :=
  String.mk (s.data.filter (fun c => !(c = '€' || c.isWhitespace)))

/-- `s.replace(/\*\*/g, '')` — drop non-overlapping `**` pairs left to
right. -/
def removeStarPairs : List Char → List Char
  | '*' :: '*' :: t => removeStarPairs t
  | c :: t => c :: removeStarPairs t
  | [] => []

/-- JavaScript truthiness of a possibly-NaN number (`none` models NaN). -/
def numTruthy : Option Rat → Bool
  | none => false
  | some q => q != 0

/-- JavaScript truthiness of a possibly-undefined string. -/
def strOptTruthy : Option String → Bool
  | none => false
  | some s => s != ""

/-- `OCRService.parsePrice`: falsy input gives `null`; otherwise euro signs
and whitespace are removed, the first comma becomes a dot, and a
`parseFloat` NaN gives `null`. -/
def parsePrice (priceStr : Option String) : Option Rat :=
  match priceStr with
  | none => none
  | some s =>
    if s = "" then none
    else jsParseFloat (String.mk (replaceFirstComma (removeEuroWs s).data))

/-- `parseInt` coerced to `Rat` for the quantity sites; every such capture
begins with a digit in the source patterns, so the NaN branch (modelled as
`0`) is unreachable there. -/
def jsParseIntD (s : String) : Rat :=
  match jsParseInt s with
  | some n => (n : Rat)
  | none => 0

mutual

/-- `split(/\s{2,}/)`: pieces between maximal runs of two or more
whitespace characters.  Fueled for kernel reduction; each step consumes at
least one character, so the wrapper fuel (input length plus one) always
suffices. -/
def splitWsRunsCore : Nat → List Char → List Char → List String
  | 0, _, cur => [String.mk cur.reverse]
  | _ + 1, [], cur => [String.mk cur.reverse]
  | fuel + 1, c :: rest, cur =>
    if c.isWhitespace then
      match rest with
      | d :: rest2 =>
        if d.isWhitespace then
          -- a run of length at least two begins here; consume it
          splitWsRunsEat fuel rest2 (String.mk cur.reverse)
        else splitWsRunsCore fuel (d :: rest2) (c :: cur)
      | [] => [String.mk (c :: cur).reverse]
    else splitWsRunsCore fuel rest (c :: cur)

/-- Consume the rest of a whitespace run, then resume piece collection. -/
def splitWsRunsEat : Nat → List Char → String → List String
  | 0, _, piece => [piece]
  | _ + 1, [], piece => [piece, ""]
  | fuel + 1, c :: rest, piece =>
    if c.isWhitespace then splitWsRunsEat fuel rest piece
    else piece :: splitWsRunsCore fuel rest [c]

end

/-- `s.split(/\s{2,}/)`. -/
def jsSplitWsRuns (s : String) : List String :=
  splitWsRunsCore (s.data.length + 1) s.data []

/-! ## Exact matcher for the regex subset used by the source

Every quantifier in the source applies to a single character class, so a
pattern is a list of elements; matching enumerates candidate consumption
lengths per element in JavaScript priority order (greedy descending, lazy
ascending), which is exactly the backtracking order of the JS engine, and
the scan over start positions gives leftmost-first semantics. -/

/-- Character classes. -/
inductive CC where
  | chr (c : Char)
  | digit
  | space
  | range (lo hi : Char)
  | union (a b : CC)
  | compl (a : CC)
  | any
deriving Repr

/-- Does character `c` belong to the class (`ci` = the `/i` flag)? -/
def ccTest (ci : Bool) : CC → Char → Bool
  | .chr a, c => if ci then jsLower a == jsLower c else a == c
  | .digit, c => c.isDigit
  | .space, c => c.isWhitespace
  | .range lo hi, c =>
    (lo ≤ c && c ≤ hi) ||
      (ci && ((lo ≤ jsLower c && jsLower c ≤ hi) || (lo ≤ jsUpper c && jsUpper c ≤ hi)))
  | .union a b, c => ccTest ci a c || ccTest ci b c
  | .compl a, c => !ccTest ci a c
  | .any, c => c != '\n'

/-- Pattern elements. -/
inductive RElem where
  | one (cc : CC)
  | star (cc : CC)
  | plus (cc : CC)
  | opt (cc : CC)
  | plusLazy (cc : CC)
  | exactN (cc : CC) (n : Nat)
  | atLeastN (cc : CC) (n : Nat)
  | betweenN (cc : CC) (n m : Nat)
  | grp (i : Nat) (es : List RElem)
  | endAnchor
deriving Repr

/-- Length of the maximal class run at the head of `s`. -/
def runLen (ci : Bool) (cc : CC) (s : List Char) : Nat :=
  (s.takeWhile (ccTest ci cc)).length

/-- `hi, hi-1, …, lo` (empty when `hi < lo`): greedy choice order. -/
def rangeDesc (lo hi : Nat) : List Nat :=
  (List.range (hi + 1 - lo)).map (fun k => hi - k)

/-- `lo, lo+1, …, hi`: lazy choice order. -/
def rangeAsc (lo hi : Nat) : List Nat :=
  (List.range (hi + 1 - lo)).map (fun k => lo + k)

/-- Captured groups: group index paired with captured text. -/
abbrev Caps := List (Nat × String)

/-- One way of matching: characters consumed and captures made. -/
abbrev MRes := Nat × Caps

mutual

/-- All ways the element list matches a prefix of `s`, in JavaScript
backtracking priority order.  The fuel argument makes the mutual recursion
structural so that concrete runs reduce inside the kernel; the wrapper
passes `matchFuel`, which strictly dominates the recursion depth, so the
fuel-exhausted branch is never taken. -/
def matchElems (ci ml : Bool) : Nat → List RElem → List Char → List MRes
  | 0, _, _ => []
  | _ + 1, [], _ => [(0, [])]
  | fuel + 1, .one cc :: es, s =>
    match s with
    | [] => []
    | c :: t =>
      if ccTest ci cc c then (matchElems ci ml fuel es t).map (fun r => (r.1 + 1, r.2))
      else []
  | fuel + 1, .star cc :: es, s => tryKs ci ml fuel (rangeDesc 0 (runLen ci cc s)) es s
  | fuel + 1, .plus cc :: es, s => tryKs ci ml fuel (rangeDesc 1 (runLen ci cc s)) es s
  | fuel + 1, .opt cc :: es, s =>
    tryKs ci ml fuel (rangeDesc 0 (min 1 (runLen ci cc s))) es s
  | fuel + 1, .plusLazy cc :: es, s => tryKs ci ml fuel (rangeAsc 1 (runLen ci cc s)) es s
  | fuel + 1, .exactN cc n :: es, s =>
    tryKs ci ml fuel (if n ≤ runLen ci cc s then [n] else []) es s
  | fuel + 1, .atLeastN cc n :: es, s => tryKs ci ml fuel (rangeDesc n (runLen ci cc s)) es s
  | fuel + 1, .betweenN cc n m :: es, s =>
    tryKs ci ml fuel (rangeDesc n (min m (runLen ci cc s))) es s
  | fuel + 1, .grp i sub :: es, s =>
    tryGrp ci ml fuel (matchElems ci ml fuel sub s) i es s
  | fuel + 1, .endAnchor :: es, s =>
    match s with
    | [] => matchElems ci ml fuel es []
    | c :: _ => if ml && c == '\n' then matchElems ci ml fuel es s else []

/-- Try each candidate consumption length `k`, continuing with `es`. -/
def tryKs (ci ml : Bool) : Nat → List Nat → List RElem → List Char → List MRes
  | 0, _, _, _ => []
  | _ + 1, [], _, _ => []
  | fuel + 1, k :: ks, es, s =>
    (matchElems ci ml fuel es (s.drop k)).map (fun r => (r.1 + k, r.2)) ++
      tryKs ci ml fuel ks es s

/-- Continue after a group: for each way the group body matched, record the
capture and match the remainder. -/
def tryGrp (ci ml : Bool) : Nat → List MRes → Nat → List RElem → List Char → List MRes
  | 0, _, _, _, _ => []
  | _ + 1, [], _, _, _ => []
  | fuel + 1, (k, cs) :: rest, i, es, s =>
    (matchElems ci ml fuel es (s.drop k)).map
      (fun r => (r.1 + k, (i, String.mk (s.take k)) :: cs ++ r.2)) ++
      tryGrp ci ml fuel rest i es s

end

mutual

/-- Weight of one pattern element (groups weigh their body). -/
def reWeight : RElem → Nat
  | .grp _ es => 1 + reWeightList es
  | _ => 1

/-- Total weight of a pattern. -/
def reWeightList : List RElem → Nat
  | [] => 0
  | e :: t => reWeight e + reWeightList t

end

/-- Fuel bound for the matcher.  The recursion depth is at most the element
count times the per-element choice count (at most the input length plus
one), times the group-result count (at most cubic in the input length since
no group holds more than three quantifiers and groups never nest); the
product below strictly dominates it. -/
def matchFuel (p : List RElem) (s : List Char) : Nat :=
  (reWeightList p + 2) * (s.length + 2) * (s.length + 2) * (s.length + 2) * (s.length + 2)

/-- Leftmost match: scan start positions left to right and take the first
position with a match (the head of the priority list there). -/
def reFirst (ci ml : Bool) (p : List RElem) : List Char → Option Caps
  | [] =>
    match matchElems ci ml (matchFuel p []) p [] with
    | r :: _ => some r.2
    | [] => none
  | c :: t =>
    match matchElems ci ml (matchFuel p (c :: t)) p (c :: t) with
    | r :: _ => some r.2
    | [] => reFirst ci ml p t

/-- `s.match(re)` restricted to what the source reads: success and the
captured groups. -/
def jsMatch (ci ml : Bool) (p : List RElem) (s : String) : Option Caps :=
  reFirst ci ml p s.data

/-- Truthiness of `s.match(re)`. -/
def jsTest (ci ml : Bool) (p : List RElem) (s : String) : Bool :=
  (jsMatch ci ml p s).isSome

/-- `match[i]`. -/
def capGet (cs : Caps) (i : Nat) : Option String :=
  (cs.find? (fun x => x.1 == i)).map (·.2)

/-- Match anchored at position 0 (patterns starting with `^`, no `/m`). -/
def jsMatchAnchored (ci : Bool) (p : List RElem) (s : String) : Option Caps :=
  match matchElems ci false (matchFuel p s.data) p s.data with
  | r :: _ => some r.2
  | [] => none

/-- `s.replace(/^pat/, '')`: drop the anchored match if there is one. -/
def jsStripAnchored (ci : Bool) (p : List RElem) (s : String) : String :=
  match matchElems ci false (matchFuel p s.data) p s.data with
  | r :: _ => String.mk (s.data.drop r.1)
  | [] => s

/-- A single literal character element. -/
def lit1 (c : Char) : RElem := .one (.chr c)

/-- Literal string as a pattern fragment. -/
def lits (s : String) : List RElem := s.data.map (fun c => RElem.one (CC.chr c))

/-! ## The concrete patterns of `google-vision.js` -/

/-- `[.,]` -/
def ccCommaDot : CC := .union (.chr ',') (.chr '.')

/-- `[0-9,]` -/
def ccDigitComma : CC := .union .digit (.chr ',')

/-- `[0-9,\.]` -/
def ccDigitCommaDot : CC := .union .digit ccCommaDot

/-- `[:\s]` -/
def ccColonWs : CC := .union (.chr ':') .space

/-- `[.:]` -/
def ccDotColon : CC := .union (.chr '.') (.chr ':')

/-- `[0-9]+[.,]?[0-9]*` — the numeric body shared by many patterns. -/
def numBody : List RElem := [.plus .digit, .opt ccCommaDot, .star .digit]

/-- `/\*\s*\*\*([^*]+)\*\*/` (product bullet in the products section). -/
def reStarBoldProd : List RElem :=
  [lit1 '*', .star .space, lit1 '*', lit1 '*',
   .grp 1 [.plus (.compl (.chr '*'))], lit1 '*', lit1 '*']

/-- `/Quantity:\s*([0-9,\.]+)/` (products section, case-sensitive). -/
def reQuantityNum : List RElem :=
  lits "Quantity:" ++ [.star .space, .grp 1 [.plus ccDigitCommaDot]]

/-- `/Price:\s*€([0-9,\.]+)/` (products section, case-sensitive). -/
def rePriceEuro : List RElem :=
  lits "Price:" ++ [.star .space, lit1 '€', .grp 1 [.plus ccDigitCommaDot]]

/-- `/\*\*([^*]+)\*\*/` (bold product cell in the pipe table). -/
def reBoldProd : List RElem :=
  [lit1 '*', lit1 '*', .grp 1 [.plus (.compl (.chr '*'))], lit1 '*', lit1 '*']

/-- `/([0-9,]+)\s*€\s*x\s*(\d+)/` (quantity/price cell). -/
def reQtyPrice : List RElem :=
  [.grp 1 [.plus ccDigitComma], .star .space, lit1 '€', .star .space,
   lit1 'x', .star .space, .grp 2 [.plus .digit]]

/-- `/([0-9,]+)\s*[A-Z]/` (simple price cell). -/
def reSimplePrice : List RElem :=
  [.grp 1 [.plus ccDigitComma], .star .space, .one (.range 'A' 'Z')]

/-- `/Quantity:\s*(\d+)/i` (new list item lookahead). -/
def reQuantityCI : List RElem :=
  lits "Quantity:" ++ [.star .space, .grp 1 [.plus .digit]]

/-- `/Price:\s*([0-9,\.]+)\s*EUR/i` -/
def rePriceEUR : List RElem :=
  lits "Price:" ++ [.star .space, .grp 1 [.plus ccDigitCommaDot], .star .space] ++ lits "EUR"

/-- `/Price:\s*([0-9,\.]+)/i` -/
def rePriceCI : List RElem :=
  lits "Price:" ++ [.star .space, .grp 1 [.plus ccDigitCommaDot]]

/-- `/Weight:\s*(\d+)\s*kg/i` -/
def reWeightKg : List RElem :=
  lits "Weight:" ++ [.star .space, .grp 1 [.plus .digit], .star .space] ++ lits "kg"

/-- `/(\d{4}-\d{2}-\d{2})/` -/
def reDateISO : List RElem :=
  [.grp 1 [.exactN .digit 4, lit1 '-', .exactN .digit 2, lit1 '-', .exactN .digit 2]]

/-- `/(\d{2}\.\d{2}\.\d{4})/` -/
def reDateDE : List RElem :=
  [.grp 1 [.exactN .digit 2, lit1 '.', .exactN .digit 2, lit1 '.', .exactN .digit 4]]

/-- `/(\d{2}\/\d{2}\/\d{4})/` -/
def reDateSlash : List RElem :=
  [.grp 1 [.exactN .digit 2, lit1 '/', .exactN .digit 2, lit1 '/', .exactN .digit 4]]

/-- `/dat\.\s*(\d{2}\.\d{2}\.\d{4})/i` -/
def reDateDat : List RElem :=
  lits "dat." ++ [.star .space] ++ reDateDE

/-- `/date:\s*(\d{2}\.\d{2}\.\d{4})/i` -/
def reDateLabel : List RElem :=
  lits "date:" ++ [.star .space] ++ reDateDE

/-- `/(\d{2}:\d{2})/` -/
def reTime : List RElem :=
  [.grp 1 [.exactN .digit 2, lit1 ':', .exactN .digit 2]]

/-- `[A-Za-zäöüß\s-]` (address tail). -/
def ccAddr : CC :=
  .union (.range 'A' 'Z') (.union (.range 'a' 'z')
    (.union (.chr 'ä') (.union (.chr 'ö') (.union (.chr 'ü')
      (.union (.chr 'ß') (.union .space (.chr '-')))))))

/-- `/\d{5}\s+[A-Za-zäöüß\s-]+$/` (address line, case-sensitive). -/
def reAddress : List RElem :=
  [.exactN .digit 5, .plus .space, .plus ccAddr, .endAnchor]

/-- `/tel[.:]\s*\d+[\/\s-]?\d+/i` -/
def rePhone : List RElem :=
  lits "tel" ++ [.one ccDotColon, .star .space, .plus .digit,
    .opt (.union (.chr '/') (.union .space (.chr '-'))), .plus .digit]

/-- `/steuer-nr[.:]\s*(\d+\/\d+)/i` -/
def reTax : List RElem :=
  lits "steuer-nr" ++ [.one ccDotColon, .star .space,
    .grp 1 [.plus .digit, lit1 '/', .plus .digit]]

/-- `/total[:\s]*[€€]?\s*([0-9]+[.,]?[0-9]*)/i` and its two label
variants. -/
def reLabeledTotal (label : String) : List RElem :=
  lits label ++ [.star ccColonWs, .opt (.chr '€'), .star .space, .grp 1 numBody]

/-- `/[€€]\s*([0-9]+[.,]?[0-9]*)\s*$/` (euro before amount, at line end). -/
def reEuroAmountEnd : List RElem :=
  [lit1 '€', .star .space, .grp 1 numBody, .star .space, .endAnchor]

/-- `/([0-9]+[.,]?[0-9]*)\s*[€€]\s*$/` (amount before euro, at line end). -/
def reAmountEuroEnd : List RElem :=
  [.grp 1 numBody, .star .space, lit1 '€', .star .space, .endAnchor]

/-- `/mwst[:\s]*([0-9,]+)/i` -/
def reVat : List RElem :=
  lits "mwst" ++ [.star ccColonWs, .grp 1 [.plus ccDigitComma]]

/-- `/netto[:\s]*([0-9,]+)/i` -/
def reNetto : List RElem :=
  lits "netto" ++ [.star ccColonWs, .grp 1 [.plus ccDigitComma]]

/-- `/([0-9,]+)\s*[€€]\s*$/` (amount paid, case-sensitive). -/
def rePaid : List RElem :=
  [.grp 1 [.plus ccDigitComma], .star .space, lit1 '€', .star .space, .endAnchor]

/-- `\d{4}-\d{2}-\d{2}\s+\d{2}:\d{2}:\d{2}` (timestamp capture body). -/
def tsBody : List RElem :=
  [.exactN .digit 4, lit1 '-', .exactN .digit 2, lit1 '-', .exactN .digit 2,
   .plus .space, .exactN .digit 2, lit1 ':', .exactN .digit 2, lit1 ':', .exactN .digit 2]

/-- `/start[:\s]*(…timestamp…)/i` -/
def reStart : List RElem := lits "start" ++ [.star ccColonWs, .grp 1 tsBody]

/-- `/ende[:\s]*(…timestamp…)/i` -/
def reEnde : List RElem := lits "ende" ++ [.star ccColonWs, .grp 1 tsBody]

/-- `/sn-kasse[:\s]*([A-Z0-9]+)/i` -/
def reKasse : List RElem :=
  lits "sn-kasse" ++ [.star ccColonWs, .grp 1 [.plus (.union (.range 'A' 'Z') .digit)]]

/-- `/ta-nummer[:\s]*(\d+)/i` -/
def reTaNum : List RElem :=
  lits "ta-nummer" ++ [.star ccColonWs, .grp 1 [.plus .digit]]

/-- `/sn-tse[:\s]*([a-f0-9]+)/i` -/
def reTse : List RElem :=
  lits "sn-tse" ++ [.star ccColonWs, .grp 1 [.plus (.union (.range 'a' 'f') .digit)]]

/-- `/signaturzähler[:\s]*(\d+)/i` -/
def reSigCounter : List RElem :=
  lits "signaturzähler" ++ [.star ccColonWs, .grp 1 [.plus .digit]]

/-- `/signatur[:\s]*([A-Z0-9\/]+)/i` -/
def reSig : List RElem :=
  lits "signatur" ++ [.star ccColonWs,
    .grp 1 [.plus (.union (.range 'A' 'Z') (.union .digit (.chr '/')))]]

/-- `/(\d+)\s+payback\s+punkte/i` -/
def rePayback : List RElem :=
  [.grp 1 [.plus .digit], .plus .space] ++ lits "payback" ++ [.plus .space] ++ lits "punkte"

/-- `/(.+?)\s+(\d+)x?\s*[€€]\s*([0-9]+[.,]?[0-9]*)/i` (item pattern 1). -/
def reItem1 : List RElem :=
  [.grp 1 [.plusLazy .any], .plus .space, .grp 2 [.plus .digit], .opt (.chr 'x'),
   .star .space, lit1 '€', .star .space, .grp 3 numBody]

/-- `/(.+?)\s+[€€]\s*([0-9]+[.,]?[0-9]*)/i` (item pattern 2). -/
def reItem2 : List RElem :=
  [.grp 1 [.plusLazy .any], .plus .space, lit1 '€', .star .space, .grp 2 numBody]

/-- `/(.+?)\s+([0-9]+[.,]?[0-9]*)\s*[€€]/i` (item pattern 3). -/
def reItem3 : List RElem :=
  [.grp 1 [.plusLazy .any], .plus .space, .grp 2 numBody, .star .space, lit1 '€']

/-- `/\*\*(.+?)\*\*\s+(\d+)\s+([0-9,]+)/` (list item pattern 1). -/
def reList1 : List RElem :=
  lits "**" ++ [.grp 1 [.plusLazy .any]] ++ lits "**" ++
    [.plus .space, .grp 2 [.plus .digit], .plus .space, .grp 3 [.plus ccDigitComma]]

/-- `/\*\*(.+?)\*\*\s+([0-9,]+)/` (list item pattern 2). -/
def reList2 : List RElem :=
  lits "**" ++ [.grp 1 [.plusLazy .any]] ++ lits "**" ++
    [.plus .space, .grp 2 [.plus ccDigitComma]]

/-- `/\*\*(.+?)\*\*\s+(\d+)\s*[xX]\s*([0-9,]+)/` (list item pattern 3). -/
def reList3 : List RElem :=
  lits "**" ++ [.grp 1 [.plusLazy .any]] ++ lits "**" ++
    [.plus .space, .grp 2 [.plus .digit], .star .space,
     .one (.union (.chr 'x') (.chr 'X')), .star .space, .grp 3 [.plus ccDigitComma]]

/-- `[A-ZÄÖÜß\s\-\.]` (fallback product-name class, used with `/i`). -/
def ccFbName : CC :=
  .union (.range 'A' 'Z') (.union (.chr 'Ä') (.union (.chr 'Ö')
    (.union (.chr 'Ü') (.union (.chr 'ß') (.union .space
      (.union (.chr '-') (.chr '.')))))))

/-- `/^([A-ZÄÖÜß\s\-\.]+)\s+(\d+)\s+([0-9,\.]+)/i` (fallback pattern 1). -/
def reFb1 : List RElem :=
  [.grp 1 [.plus ccFbName], .plus .space, .grp 2 [.plus .digit],
   .plus .space, .grp 3 [.plus ccDigitCommaDot]]

/-- `/^([A-ZÄÖÜß\s\-\.]+)\s+([0-9,\.]+)/i` (fallback pattern 2). -/
def reFb2 : List RElem :=
  [.grp 1 [.plus ccFbName], .plus .space, .grp 2 [.plus ccDigitCommaDot]]

/-- `/^([A-ZÄÖÜß\s\-\.]{3,})$/i` (fallback pattern 3). -/
def reFb3 : List RElem :=
  [.grp 1 [.atLeastN ccFbName 3], .endAnchor]

/-- `/^([A-Z]{2,4})\s/` (brand pattern 1). -/
def reBrand1 : List RElem :=
  [.grp 1 [.betweenN (.range 'A' 'Z') 2 4], .one .space]

/-- `/^([A-Za-z]+)\s/` (brand pattern 2). -/
def reBrand2 : List RElem :=
  [.grp 1 [.plus (.union (.range 'A' 'Z') (.range 'a' 'z'))], .one .space]

/-- `/^\*\s*/` (leading star strip). -/
def reStarPfx : List RElem := [lit1 '*', .star .space]

/-- `/^\*?\s*Store Name:\s*/i` -/
def reStoreNamePfx : List RElem :=
  [.opt (.chr '*'), .star .space] ++ lits "Store Name:" ++ [.star .space]

/-- `/^\*?\s*Name:\s*/i` -/
def reNamePfx : List RElem :=
  [.opt (.chr '*'), .star .space] ++ lits "Name:" ++ [.star .space]

/-- `/^\*?\s*Company Name:\s*/i` -/
def reCompanyPfx : List RElem :=
  [.opt (.chr '*'), .star .space] ++ lits "Company Name:" ++ [.star .space]

/-- `/summe\s*[€€]?\s*([0-9]+[.,]?[0-9]*)/i` and label variants of the
document-wide total patterns (`[:\s]*` of the per-line forms becomes `\s*`
here). -/
def rePatTotal (label : String) : List RElem :=
  lits label ++ [.star .space, .opt (.chr '€'), .star .space, .grp 1 numBody]

/-! ## Keyword dictionaries -/

/-- `isItemsSection`. -/
def isItemsSection (line : String) : Bool :=
  let l := jsLowerStr line
  ["purchase items", "items", "artikel", "produkte", "waren"].any
    (fun k => jsIncludes l k)

/-- `isHeaderOrTotal`. -/
def isHeaderOrTotal (line : String) : Bool :=
  let l := jsLowerStr line
  ["total", "summe", "gesamt", "kasse", "kassierer", "bon", "receipt",
   "datum", "date", "payment", "steuer", "mwst"].any (fun k => jsIncludes l k)

/-- `isNotAProduct`. -/
def isNotAProduct (text : String) : Bool :=
  let l := jsLowerStr text
  ["total", "summe", "sum", "payment", "cash", "card", "change", "rueckgeld",
   "tax", "vat", "mwst", "discount", "date", "time", "store", "address",
   "phone", "website", "thank", "danke", "receipt", "bon", "kas", "terminal",
   "steuer", "fiscal", "loyalty", "treue", "points", "eur", "euro", "amount",
   "method", "eft", "credit", "debit", "change", "cashier", "register"].any
    (fun k => jsIncludes l k)

/-! ## Data model of the structured receipt -/

/-- One extracted line item. -/
structure LineItem where
  product_name : String
  quantity : Rat
  unit_price : Option Rat
  total_price : Option Rat
  category : Option String
  brand : Option String
  item_code : String
  line_text : String
  matched : Bool
deriving DecidableEq, Repr

/-- `receipt.metadata`. -/
structure Metadata where
  date : Option String
  time : Option String
  receipt_number : Option String
  transaction_id : Option String
deriving DecidableEq, Repr

/-- `receipt.store`. -/
structure StoreInfo where
  name : Option String
  address : Option String
  phone : Option String
  tax_id : Option String
  store_chain : Option String
deriving DecidableEq, Repr

/-- `receipt.totals`. -/
structure Totals where
  subtotal : Option Rat
  vat_amount : Option Rat
  vat_rate : Option Rat
  total_amount : Option Rat
  currency : String
deriving DecidableEq, Repr

/-- `receipt.payment`. -/
structure Payment where
  method : Option String
  amount_paid : Option Rat
  change : Option Rat
  card_type : Option String
  card_number : Option String
deriving DecidableEq, Repr

/-- `receipt.cashier_info`. -/
structure CashierInfo where
  start_time : Option String
  end_time : Option String
  cashier_number : Option String
  terminal_number : Option String
deriving DecidableEq, Repr

/-- `receipt.fiscal_info`. -/
structure FiscalInfo where
  tse_signature : Option String
  signature_counter : Option String
  signature : Option String
  signature_data : Option String
  fiscal_data : Option String
deriving DecidableEq, Repr

/-- `receipt.loyalty`. -/
structure Loyalty where
  program : Option String
  points_earned : Option Int
  points_balance : Option Int
deriving DecidableEq, Repr

/-- The structured receipt. -/
structure Receipt where
  metadata : Metadata
  store : StoreInfo
  items : List LineItem
  totals : Totals
  payment : Payment
  cashier_info : CashierInfo
  fiscal_info : FiscalInfo
  loyalty : Loyalty
deriving DecidableEq, Repr

/-- The initial receipt built at the top of `parseMarkdown` (currency
defaults to EUR; everything else null/empty). -/
def initReceipt : Receipt where
  metadata := ⟨none, none, none, none⟩
  store := ⟨none, none, none, none, none⟩
  items := []
  totals := ⟨none, none, none, none, "EUR"⟩
  payment := ⟨none, none, none, none, none⟩
  cashier_info := ⟨none, none, none, none⟩
  fiscal_info := ⟨none, none, none, none, none⟩
  loyalty := ⟨none, none, none⟩

/-- The full `parseMarkdown` return value. -/
structure ParseResult where
  receipt : Receipt
  raw_markdown : String
  confidence_score : Option Rat
  processing_time : Option Rat
  timestamp : String
  version : String
  ocr_model : String
  parser_version : String
deriving DecidableEq, Repr

/-- The source of the random suffixes `Math.random()…` mixes into item
codes: the `n`-th generated suffix. -/
abbrev Rng := Nat → String

/-- Parsing state: the receipt under construction plus how many item codes
have been generated so far. -/
structure PState where
  receipt : Receipt
  ctr : Nat
deriving Repr

/-! ## Item-level helpers -/

/-- `price ? price / quantity : null` (`0` and NaN are falsy; NaN was
collapsed into `none` at the parse boundary). -/
def unitOf (price : Option Rat) (q : Rat) : Option Rat :=
  match price with
  | some p => if p = 0 then none else some (ratDiv p q)
  | none => none

/-- `price || null`. -/
def totalOf (price : Option Rat) : Option Rat :=
  match price with
  | some p => if p = 0 then none else some p
  | none => none

/-- `generateItemCode`: keep ASCII alphanumerics, upper-case, first eight
characters, then the random suffix. -/
def generateItemCode (rng : Rng) (n : Nat) (productName : String) : String :=
  let cleanName := jsUpperStr (String.mk (productName.data.filter (fun c => c.isAlpha || c.isDigit)))
  String.mk (cleanName.data.take 8) ++ rng n

/-- `extractBrand`: first anchored pattern that matches wins. -/
def extractBrand (productName : String) : Option String :=
  match jsMatchAnchored false reBrand1 productName with
  | some caps => capGet caps 1
  | none =>
    match jsMatchAnchored false reBrand2 productName with
    | some caps => capGet caps 1
    | none => none

/-- Zero-pad a digit list on the left to length `k`. -/
def padZeros (s : List Char) (k : Nat) : List Char :=
  List.replicate (k - s.length) '0' ++ s

/-- Decimal rendering of a `Rat` for the template-literal `line_text`
fields.  JavaScript float printing can differ on non-decimal rationals; no
claim inspects these audit-only strings. -/
def jsRatToString (q : Rat) : String :=
  if q.den = 1 then toString q.num
  else
    match (List.range 21).find? (fun k => 10 ^ k % q.den = 0) with
    | some k =>
      let scaled := q.num.natAbs * 10 ^ k / q.den
      let ip := scaled / 10 ^ k
      let fr := scaled % 10 ^ k
      let sgn := if q.num < 0 then "-" else ""
      let frDigits := (padZeros (Nat.toDigits 10 fr) k).reverse.dropWhile (· = '0')
      sgn ++ toString ip ++ "." ++ String.mk frDigits.reverse
    | none => toString q.num ++ "/" ++ toString q.den

/-! ## Scalar field extractors (one line each, `extractLineData` loop) -/

/-- `extractDate`: the five date patterns in fixed order (the last two are
case-insensitive in the source). -/
def extractDate (line : String) : Option String :=
  match jsMatch false false reDateISO line with
  | some caps => capGet caps 1
  | none =>
  match jsMatch false false reDateDE line with
  | some caps => capGet caps 1
  | none =>
  match jsMatch false false reDateSlash line with
  | some caps => capGet caps 1
  | none =>
  match jsMatch true false reDateDat line with
  | some caps => capGet caps 1
  | none =>
  match jsMatch true false reDateLabel line with
  | some caps => capGet caps 1
  | none => none

/-- `extractMetadata`. -/
def extractMetadataL (line : String) (md : Metadata) : Metadata :=
  let md :=
    if strOptTruthy md.date then md
    else
      match extractDate line with
      | some d => { md with date := some d }
      | none => md
  if strOptTruthy md.time then md
  else
    match jsMatch false false reTime line with
    | some caps =>
      match capGet caps 1 with
      | some t => { md with time := some t }
      | none => md
    | none => md

/-- Case-insensitive substring test, modelling `line.match(/word/i)` for a
literal word. -/
def ciIncludes (line pat : String) : Bool :=
  jsIncludes (jsLowerStr line) (jsLowerStr pat)

/-- The fixed retailer table of `extractStoreInfo`:
(test word, clean name, chain tag). -/
def storePatterns : List (String × String × String) :=
  [("EDEKA", "EDEKA", "EDEKA"),
   ("Kaufland", "Kaufland", "Kaufland"),
   ("dm-drogerie", "dm-drogerie markt", "dm-drogerie"),
   ("real-", "real", "real"),
   ("Kaisers Tengelmann", "Kaisers Tengelmann", "Kaisers"),
   ("Rewe", "REWE", "REWE"),
   ("Lidl", "Lidl", "Lidl"),
   ("Aldi", "Aldi", "Aldi")]

/-- The `cleanName` computation of `extractStoreInfo`: strip bold pairs and
a leading star, trim, then the three label-removal passes. -/
def storeCleanName (line : String) : String :=
  let c1 := String.mk (removeStarPairs line.data)
  let c2 := jsStripAnchored false reStarPfx c1
  let c3 := jsTrim c2
  let c4 := jsStripAnchored true reStoreNamePfx c3
  let c5 := jsStripAnchored true reNamePfx c4
  jsStripAnchored true reCompanyPfx c5

/-- The store-name loop: first retailer whose word occurs (case
insensitively) in the line and whose exact name survives in the cleaned
line wins; otherwise the loop continues. -/
def storeScan (line : String) : List (String × String × String) → Option (String × String)
  | [] => none
  | (pat, nm, ch) :: rest =>
    if ciIncludes line pat then
      if jsIncludes (storeCleanName line) nm then some (nm, ch)
      else storeScan line rest
    else storeScan line rest

/-- `extractStoreInfo`. -/
def extractStoreInfoL (line : String) (st : StoreInfo) : StoreInfo :=
  let st :=
    if strOptTruthy st.name then st
    else
      match storeScan line storePatterns with
      | some (nm, ch) => { st with name := some nm, store_chain := some ch }
      | none => st
  let st :=
    if strOptTruthy st.address then st
    else if jsTest false false reAddress line then { st with address := some (jsTrim line) }
    else st
  let st :=
    if strOptTruthy st.phone then st
    else if jsTest true false rePhone line then { st with phone := some (jsTrim line) }
    else st
  if strOptTruthy st.tax_id then st
  else
    match jsMatch true false reTax line with
    | some caps =>
      match capGet caps 1 with
      | some t => { st with tax_id := some t }
      | none => st
    | none => st

/-- `extractTotal`: five patterns; a match whose parsed amount is not
strictly positive lets the loop continue. -/
def extractTotal (line : String) : Option Rat :=
  let tryPat := fun (p : List RElem) =>
    match jsMatch true false p line with
    | some caps =>
      match parsePrice (capGet caps 1) with
      | some a => if 0 < a then some a else none
      | none => none
    | none => none
  match tryPat (reLabeledTotal "total") with
  | some a => some a
  | none =>
  match tryPat (reLabeledTotal "summe") with
  | some a => some a
  | none =>
  match tryPat (reLabeledTotal "gesamt") with
  | some a => some a
  | none =>
  match tryPat reEuroAmountEnd with
  | some a => some a
  | none => tryPat reAmountEuroEnd

/-- `extractTotals`. -/
def extractTotalsL (line : String) (tt : Totals) : Totals :=
  let tt :=
    if numTruthy tt.total_amount then tt
    else
      match extractTotal line with
      | some a => { tt with total_amount := some a }
      | none => tt
  let tt :=
    if numTruthy tt.vat_amount then tt
    else
      match jsMatch true false reVat line with
      | some caps => { tt with vat_amount := parsePrice (capGet caps 1) }
      | none => tt
  if numTruthy tt.subtotal then tt
  else
    match jsMatch true false reNetto line with
    | some caps => { tt with subtotal := parsePrice (capGet caps 1) }
    | none => tt

/-- `extractPaymentInfo`. -/
def extractPaymentInfoL (line : String) (pay : Payment) : Payment :=
  let pay :=
    if strOptTruthy pay.method then pay
    else
      if ciIncludes line "visa" || ciIncludes line "ec" || ciIncludes line "bar" ||
          ciIncludes line "kartenzahlung" then
        let pay := { pay with method := some (jsTrim line) }
        if jsIncludes line "VISA" then { pay with card_type := some "VISA" }
        else if jsIncludes line "EC" then { pay with card_type := some "EC" }
        else pay
      else pay
  if numTruthy pay.amount_paid then pay
  else
    match jsMatch false false rePaid line with
    | some caps => { pay with amount_paid := parsePrice (capGet caps 1) }
    | none => pay

/-- `extractCashierInfo`. -/
def extractCashierInfoL (line : String) (ca : CashierInfo) : CashierInfo :=
  let setCap := fun (p : List RElem) (cur : Option String) =>
    if strOptTruthy cur then cur
    else
      match jsMatch true false p line with
      | some caps =>
        match capGet caps 1 with
        | some v => some v
        | none => cur
      | none => cur
  { ca with
    start_time := setCap reStart ca.start_time
    end_time := setCap reEnde ca.end_time
    cashier_number := setCap reKasse ca.cashier_number
    terminal_number := setCap reTaNum ca.terminal_number }

/-- `extractFiscalInfo`. -/
def extractFiscalInfoL (line : String) (fi : FiscalInfo) : FiscalInfo :=
  let setCap := fun (p : List RElem) (cur : Option String) =>
    if strOptTruthy cur then cur
    else
      match jsMatch true false p line with
      | some caps =>
        match capGet caps 1 with
        | some v => some v
        | none => cur
      | none => cur
  { fi with
    tse_signature := setCap reTse fi.tse_signature
    signature_counter := setCap reSigCounter fi.signature_counter
    signature := setCap reSig fi.signature }

/-- JavaScript truthiness of a possibly-NaN integer. -/
def intTruthy : Option Int → Bool
  | none => false
  | some n => n != 0

/-- `extractLoyaltyInfo`. -/
def extractLoyaltyInfoL (line : String) (lo : Loyalty) : Loyalty :=
  if intTruthy lo.points_earned then lo
  else
    match jsMatch true false rePayback line with
    | some caps =>
      match capGet caps 1 with
      | some v => { lo with points_earned := jsParseInt v, program := some "PAYBACK" }
      | none => lo
    | none => lo

/-! ## Item extraction (`extractItem` and the row/list parsers) -/

/-- Build the item of `extractItem` from a match; the guard
`productName && price && price > 0` makes the pattern loop continue on
failure. -/
def itemFromCaps (rng : Rng) (n : Nat) (line : String) (caps : Caps) : Option LineItem :=
  let productName := jsTrim ((capGet caps 1).getD "")
  let quantity : Rat :=
    if strOptTruthy (capGet caps 2) then jsParseIntD ((capGet caps 2).getD "") else 1
  let price := parsePrice (if strOptTruthy (capGet caps 3) then capGet caps 3 else capGet caps 2)
  match price with
  | some p =>
    if productName ≠ "" ∧ 0 < p then
      some { product_name := productName, quantity := quantity,
             unit_price := some (ratDiv p quantity), total_price := some p,
             category := none, brand := extractBrand productName,
             item_code := generateItemCode rng n productName,
             line_text := line, matched := false }
    else none
  | none => none

/-- The pattern loop of `extractItem`. -/
def itemTry (rng : Rng) (n : Nat) (line : String) : List (List RElem) → Option LineItem
  | [] => none
  | p :: ps =>
    match jsMatch true false p line with
    | some caps =>
      match itemFromCaps rng n line caps with
      | some it => some it
      | none => itemTry rng n line ps
    | none => itemTry rng n line ps

/-- `extractItem`. -/
def extractItem (rng : Rng) (n : Nat) (line : String) : Option LineItem :=
  if isHeaderOrTotal line then none
  else itemTry rng n line [reItem1, reItem2, reItem3]

/-- `parseEDEKATableRow`. -/
def parseEDEKATableRow (rng : Rng) (n : Nat) (line : String) : Option LineItem :=
  if line = "" || jsIncludes line "---" || jsIncludes line "Product" ||
      jsIncludes line "Quantity" || jsIncludes line "Price" then none
  else
    let parts := (jsSplitWsRuns line).filter (fun p => jsTrim p ≠ "")
    if 2 ≤ parts.length then
      let productName := jsTrim (parts.getD 0 "")
      let quantity : Rat :=
        match parts.get? 1 with
        | some s =>
          match jsParseInt s with
          | some k => if k = 0 then 1 else (k : Rat)
          | none => 1
        | none => 1
      let price :=
        match parts.get? 2 with
        | some s => parsePrice (some s)
        | none => none
      if isNotAProduct productName then none
      else
        some { product_name := productName, quantity := quantity,
               unit_price := unitOf price quantity, total_price := totalOf price,
               category := none, brand := extractBrand productName,
               item_code := generateItemCode rng n productName,
               line_text := line, matched := false }
    else none

/-- `parseTableRow` (called with at least three columns). -/
def parseTableRow (rng : Rng) (n : Nat) (columns : List String) : Option LineItem :=
  let itemName := columns.getD 0 ""
  let quantity := columns.getD 1 ""
  let price := columns.getD 2 ""
  if itemName = "" || itemName = "Item" || itemName = "---" then none
  else
    let parsedQuantity : Rat :=
      match jsParseInt quantity with
      | some k => if k = 0 then 1 else (k : Rat)
      | none => 1
    let parsedPrice := parsePrice (some price)
    some { product_name := itemName, quantity := parsedQuantity,
           unit_price := unitOf parsedPrice parsedQuantity,
           total_price := totalOf parsedPrice, category := none,
           brand := extractBrand itemName,
           item_code := generateItemCode rng n itemName,
           line_text := jsJoinPipe columns, matched := false }

/-- `parseListItem`: the patterns require a literal `**` in a line from
which `**` pairs were just removed, so they can never match; embedded
faithfully nonetheless. -/
def parseListItem (rng : Rng) (n : Nat) (line : String) : Option LineItem :=
  let cleanLine := String.mk (removeStarPairs (jsStripAnchored false reStarPfx line).data)
  let build := fun (caps : Caps) =>
    let productName := jsTrim ((capGet caps 1).getD "")
    let quantity : Rat :=
      if strOptTruthy (capGet caps 2) then jsParseIntD ((capGet caps 2).getD "") else 1
    let price := parsePrice (if strOptTruthy (capGet caps 3) then capGet caps 3 else capGet caps 2)
    some { product_name := productName, quantity := quantity,
           unit_price := unitOf price quantity, total_price := totalOf price,
           category := none, brand := extractBrand productName,
           item_code := generateItemCode rng n productName,
           line_text := cleanLine, matched := false }
  match jsMatch false false reList1 cleanLine with
  | some caps => build caps
  | none =>
  match jsMatch false false reList2 cleanLine with
  | some caps => build caps
  | none =>
  match jsMatch false false reList3 cleanLine with
  | some caps => build caps
  | none => none

/-- The lookahead loop of `parseNewListItem` over the following lines
(quantity, prices, weight, EUR-per-kg reset; stops at the next product
bullet). -/
def newListScan (lines : List String) (stop : Nat) : Nat → Nat → Rat → Option Rat → Rat × Option Rat
  | 0, _, q, price => (q, price)
  | fuel + 1, j, q, price =>
  if j < stop then
    let nextLine := jsTrim (lines.getD j "")
    if nextLine = "" then newListScan lines stop fuel (j + 1) q price
    else if jsStartsWith nextLine "*" && jsIncludes nextLine "**" then (q, price)
    else
      let q :=
        match jsMatch true false reQuantityCI nextLine with
        | some caps => jsParseIntD ((capGet caps 1).getD "")
        | none => q
      let price :=
        match jsMatch true false rePriceEUR nextLine with
        | some caps => parsePrice (capGet caps 1)
        | none => price
      let price :=
        match jsMatch true false rePriceCI nextLine with
        | some caps => if numTruthy price then price else parsePrice (capGet caps 1)
        | none => price
      let q :=
        match jsMatch true false reWeightKg nextLine with
        | some caps => jsParseIntD ((capGet caps 1).getD "")
        | none => q
      let price :=
        if jsIncludes nextLine "EUR / kg" || jsIncludes nextLine "EUR/kg" then none else price
      newListScan lines stop fuel (j + 1) q price
  else (q, price)

/-- `parseNewListItem`. -/
def parseNewListItem (rng : Rng) (n : Nat) (line : String) (lines : List String)
    (i : Nat) : Option LineItem :=
  match jsMatch false false reStarBoldProd line with
  | some caps =>
    let productName := jsTrim ((capGet caps 1).getD "")
    let qp := newListScan lines (min (i + 10) lines.length) (min (i + 10) lines.length + 1) (i + 1) 1 none
    some { product_name := productName, quantity := qp.1,
           unit_price := unitOf qp.2 qp.1, total_price := totalOf qp.2,
           category := none, brand := extractBrand productName,
           item_code := generateItemCode rng n productName,
           line_text := line, matched := false }
  | none => none

/-! ## Strategy 1: `extractStructuredData` -/

/-- The mutable flags of the `extractStructuredData` loop. -/
structure SDState where
  inTable : Bool
  inItemsSection : Bool
  inItemsPurchased : Bool
  inEDEKATable : Bool
  currentProduct : Option String
  inProductsSection : Bool
deriving Repr

/-- All flags cleared. -/
def initSD : SDState := ⟨false, false, false, false, none, false⟩

/-- Append an item and consume one random suffix. -/
def pushItem (ps : PState) (it : LineItem) : PState :=
  { receipt := { ps.receipt with items := ps.receipt.items ++ [it] }, ctr := ps.ctr + 1 }

/-- The price lookahead of the products section (window of at most four
following lines; a `Price:` bullet decides, another product stops). -/
def lookPriceGo (lines : List String) (stop : Nat) : Nat → Nat → Option (Option Rat)
  | 0, _ => none
  | fuel + 1, j =>
  if j < stop then
    let nextLine := jsTrim (lines.getD j "")
    if jsStartsWith nextLine "+" && jsIncludes nextLine "Price:" then
      match jsMatch false false rePriceEuro nextLine with
      | some caps =>
        some (jsParseFloat (String.mk (replaceFirstComma ((capGet caps 1).getD "").data)))
      | none => none
    else if jsStartsWith nextLine "*" && jsIncludes nextLine "**" then none
    else lookPriceGo lines stop fuel (j + 1)
  else none

/-- Steps of the loop from the `Items Purchased` section marker down. -/
def sdStepM (rng : Rng) (lines : List String) (i : Nat) (line : String)
    (st : SDState) (ps : PState) : SDState × PState :=
  if jsIncludes line "Items Purchased" || jsIncludes line "Items purchased" then
    ({ st with inItemsPurchased := true }, ps)
  else if st.inItemsPurchased && jsStartsWith line "*" && jsIncludes line "**" then
    match parseNewListItem rng ps.ctr line lines i with
    | some it => (st, pushItem ps it)
    | none => (st, ps)
  else if st.inItemsPurchased && !jsStartsWith line "*" && !jsIncludes line "\t" &&
      !jsIncludes line "+" then
    ({ st with inItemsPurchased := false }, ps)
  else (st, ps)

/-- Steps of the loop from the items-section marker down. -/
def sdStepK (rng : Rng) (lines : List String) (i : Nat) (line : String)
    (st : SDState) (ps : PState) : SDState × PState :=
  if isItemsSection line then ({ st with inItemsSection := true }, ps)
  else if st.inItemsSection && jsStartsWith line "*" && jsIncludes line "**" then
    let ps :=
      match parseListItem rng ps.ctr line with
      | some it => pushItem ps it
      | none => ps
    sdStepM rng lines i line st ps
  else
    let st :=
      if st.inItemsSection && !jsStartsWith line "*" then { st with inItemsSection := false }
      else st
    sdStepM rng lines i line st ps

/-- Steps of the loop from the standard pipe-table marker down. -/
def sdStepH (rng : Rng) (lines : List String) (i : Nat) (line : String)
    (st : SDState) (ps : PState) : SDState × PState :=
  if jsIncludes line "|" && jsIncludes line "---" then ({ st with inTable := true }, ps)
  else if st.inTable && jsIncludes line "|" then
    let columns := ((jsSplitChar line '|').map jsTrim).filter (· ≠ "")
    let ps :=
      if 3 ≤ columns.length then
        match parseTableRow rng ps.ctr columns with
        | some it => pushItem ps it
        | none => ps
      else ps
    sdStepK rng lines i line st ps
  else
    let st := if st.inTable then { st with inTable := false } else st
    sdStepK rng lines i line st ps

/-- Steps of the loop from the headed EDEKA table down. -/
def sdStepF (rng : Rng) (lines : List String) (i : Nat) (line : String)
    (st : SDState) (ps : PState) : SDState × PState :=
  if jsIncludes line "Product" && jsIncludes line "Quantity" && jsIncludes line "Price" then
    ({ st with inEDEKATable := true }, ps)
  else if st.inEDEKATable then
    if jsIncludes line "Posten:" || jsIncludes line "SUMME" || jsIncludes line "Datum:" then
      ({ st with inEDEKATable := false }, ps)
    else
      let ps :=
        match parseEDEKATableRow rng ps.ctr line with
        | some it => pushItem ps it
        | none => ps
      sdStepH rng lines i line st ps
  else sdStepH rng lines i line st ps

/-- Steps of the loop handling the pipe-separated bold-product rows. -/
def sdStepC (rng : Rng) (lines : List String) (i : Nat) (line : String)
    (st : SDState) (ps : PState) : SDState × PState :=
  if jsIncludes line "|" && jsIncludes line "**" && !jsIncludes line "---" then
    let st :=
      match jsMatch false false reBoldProd line with
      | some caps => { st with currentProduct := some (jsTrim ((capGet caps 1).getD "")) }
      | none => st
    (st, ps)
  else if strOptTruthy st.currentProduct && jsIncludes line "|" &&
      !jsIncludes line "**" && !jsIncludes line "---" then
    let parts := ((jsSplitChar line '|').map jsTrim).filter (· ≠ "")
    if 1 ≤ parts.length then
      let quantityPrice := parts.getD 0 ""
      let total : Option String := parts.get? 1
      let qp : Rat × Option Rat :=
        match jsMatch false false reQtyPrice quantityPrice with
        | some caps => (jsParseIntD ((capGet caps 2).getD ""), parsePrice (capGet caps 1))
        | none =>
          match jsMatch false false reSimplePrice quantityPrice with
          | some caps => (1, parsePrice (capGet caps 1))
          | none => (1, none)
      let quantity := qp.1
      let price := if strOptTruthy total && !numTruthy qp.2 then parsePrice total else qp.2
      let cp := st.currentProduct.getD ""
      let it : LineItem :=
        { product_name := cp, quantity := quantity,
          unit_price := unitOf price quantity, total_price := totalOf price,
          category := none, brand := extractBrand cp,
          item_code := generateItemCode rng ps.ctr cp,
          line_text := cp ++ " - " ++ quantityPrice ++ " - " ++ total.getD "",
          matched := false }
      let ps :=
        if strOptTruthy st.currentProduct && !isNotAProduct cp then pushItem ps it
        else ps
      ({ st with currentProduct := none }, ps)
    else (st, ps)
  else
    let st :=
      if !jsIncludes line "|" && strOptTruthy st.currentProduct then
        { st with currentProduct := none }
      else st
    sdStepF rng lines i line st ps

/-- One iteration of the `extractStructuredData` loop (products section
first, then the remaining steps). -/
def sdStep (rng : Rng) (lines : List String) (i : Nat) (line : String)
    (st : SDState) (ps : PState) : SDState × PState :=
  if jsIncludes line "Products Purchased" || jsIncludes line "Products purchased" then
    ({ st with inProductsSection := true }, ps)
  else if st.inProductsSection then
    match jsMatch false false reStarBoldProd line with
    | some caps => ({ st with currentProduct := some (jsTrim ((capGet caps 1).getD "")) }, ps)
    | none =>
      if strOptTruthy st.currentProduct && jsStartsWith line "+" &&
          jsIncludes line "Quantity:" then
        let quantity : Rat :=
          match jsMatch false false reQuantityNum line with
          | some caps =>
            -- a digitless capture would store NaN in the source; modelled as 0
            (jsParseFloat (String.mk (replaceFirstComma ((capGet caps 1).getD "").data))).getD 0
          | none => 1
        let price0 : Option Rat :=
          match jsMatch false false rePriceEuro line with
          | some caps =>
            jsParseFloat (String.mk (replaceFirstComma ((capGet caps 1).getD "").data))
          | none => none
        let price :=
          if numTruthy price0 then price0
          else
            match lookPriceGo lines (min (i + 5) lines.length) (min (i + 5) lines.length + 1) (i + 1) with
            | some v => v
            | none => price0
        let cp := st.currentProduct.getD ""
        let priceTxt :=
          match price with
          | some p => if p = 0 then "N/A" else jsRatToString p
          | none => "N/A"
        let it : LineItem :=
          { product_name := cp, quantity := quantity,
            unit_price := unitOf price quantity, total_price := totalOf price,
            category := none, brand := extractBrand cp,
            item_code := generateItemCode rng ps.ctr cp,
            line_text := cp ++ " - Qty: " ++ jsRatToString quantity ++ " - Price: €" ++ priceTxt,
            matched := false }
        let ps :=
          if strOptTruthy st.currentProduct && !isNotAProduct cp then pushItem ps it
          else ps
        ({ st with currentProduct := none }, ps)
      else
        let st :=
          if !jsStartsWith line "*" && !jsStartsWith line "+" && 0 < line.length then
            { st with inProductsSection := false, currentProduct := none }
          else st
        sdStepC rng lines i line st ps
  else sdStepC rng lines i line st ps

/-- The indexed loop of `extractStructuredData`. -/
def sdLoop (rng : Rng) (lines : List String) : Nat → Nat → SDState → PState → PState
  | 0, _, _, ps => ps
  | fuel + 1, i, st, ps =>
  if i < lines.length then
    let line := jsTrim (lines.getD i "")
    let r := sdStep rng lines i line st ps
    sdLoop rng lines fuel (i + 1) r.1 r.2
  else ps

/-- `extractStructuredData`. -/
def extractStructuredData (rng : Rng) (lines : List String) (ps : PState) : PState :=
  sdLoop rng lines (lines.length + 1) 0 initSD ps

/-! ## Strategy 2: `extractLineData` -/

/-- One line of the `extractLineData` loop: the scalar extractors in source
order, then the single-item extraction that runs only while the items list
is still empty. -/
def processLine (rng : Rng) (line : String) (ps : PState) : PState :=
  let t := jsTrim line
  if t = "" then ps
  else
    let r := ps.receipt
    let r :=
      { r with
        metadata := extractMetadataL t r.metadata
        store := extractStoreInfoL t r.store
        totals := extractTotalsL t r.totals
        payment := extractPaymentInfoL t r.payment
        cashier_info := extractCashierInfoL t r.cashier_info
        fiscal_info := extractFiscalInfoL t r.fiscal_info
        loyalty := extractLoyaltyInfoL t r.loyalty }
    if r.items.length = 0 then
      match extractItem rng ps.ctr t with
      | some it => { receipt := { r with items := r.items ++ [it] }, ctr := ps.ctr + 1 }
      | none => { receipt := r, ctr := ps.ctr }
    else { receipt := r, ctr := ps.ctr }

/-- `extractLineData`. -/
def extractLineData (rng : Rng) (lines : List String) (ps : PState) : PState :=
  lines.foldl (fun ps l => processLine rng l ps) ps

/-! ## Strategy 4: `extractPatternData` -/

/-- The document-wide total scan (looser label patterns; the two euro-sign
patterns carry the `/m` flag). -/
def patTotalScan (markdown : String) : Option Rat :=
  let tryPat := fun (p : List RElem) (ml : Bool) =>
    match jsMatch true ml p markdown with
    | some caps =>
      match parsePrice (capGet caps 1) with
      | some a => if 0 < a then some a else none
      | none => none
    | none => none
  match tryPat (rePatTotal "summe") false with
  | some a => some a
  | none =>
  match tryPat (rePatTotal "total") false with
  | some a => some a
  | none =>
  match tryPat (rePatTotal "gesamt") false with
  | some a => some a
  | none =>
  match tryPat reEuroAmountEnd true with
  | some a => some a
  | none => tryPat reAmountEuroEnd true

/-- `extractPatternData`: document-wide total and date fallbacks (the date
pattern list coincides with the per-line `extractDate` list). -/
def extractPatternData (markdown : String) (ps : PState) : PState :=
  let r := ps.receipt
  let tt :=
    if numTruthy r.totals.total_amount then r.totals
    else
      match patTotalScan markdown with
      | some a => { r.totals with total_amount := some a }
      | none => r.totals
  let md :=
    if strOptTruthy r.metadata.date then r.metadata
    else
      match extractDate markdown with
      | some d => { r.metadata with date := some d }
      | none => r.metadata
  { ps with receipt := { r with totals := tt, metadata := md } }

/-! ## Strategy 5: `extractItemsFallback` -/

/-- Build a fallback potential item from an anchored match. -/
def fbBuild (rng : Rng) (n : Nat) (t : String) (caps : Caps) : LineItem :=
  let productName := jsTrim ((capGet caps 1).getD "")
  let quantity : Rat :=
    if strOptTruthy (capGet caps 2) then jsParseIntD ((capGet caps 2).getD "") else 1
  let price := if strOptTruthy (capGet caps 3) then parsePrice (capGet caps 3) else none
  { product_name := productName, quantity := quantity,
    unit_price := unitOf price quantity, total_price := totalOf price,
    category := none, brand := extractBrand productName,
    item_code := generateItemCode rng n productName,
    line_text := t, matched := false }

/-- The pattern loop of the fallback: a match whose name is in the
not-a-product dictionary lets the loop continue with the next pattern. -/
def fbTryPatterns (rng : Rng) (n : Nat) (t : String) :
    List (List RElem) → Option LineItem
  | [] => none
  | p :: ps =>
    match jsMatchAnchored true p t with
    | some caps =>
      if isNotAProduct (jsTrim ((capGet caps 1).getD "")) then fbTryPatterns rng n t ps
      else some (fbBuild rng n t caps)
    | none => fbTryPatterns rng n t ps

/-- Collect the `potentialItems` list, threading the code counter (a code
is generated per potential item, before deduplication). -/
def fbCollect (rng : Rng) : List String → Nat → List LineItem × Nat
  | [], n => ([], n)
  | l :: rest, n =>
    let t := jsTrim l
    if t = "" || isHeaderOrTotal t then fbCollect rng rest n
    else
      match fbTryPatterns rng n t [reFb1, reFb2, reFb3] with
      | some it =>
        let r := fbCollect rng rest (n + 1)
        (it :: r.1, r.2)
      | none => fbCollect rng rest n

/-- Deduplicate by lower-cased product name, keeping first occurrences. -/
def fbDedup : List LineItem → List String → List LineItem
  | [], _ => []
  | it :: rest, seen =>
    if seen.contains (jsLowerStr it.product_name) then fbDedup rest seen
    else it :: fbDedup rest (jsLowerStr it.product_name :: seen)

/-- `extractItemsFallback`. -/
def extractItemsFallback (rng : Rng) (markdown : String) (ps : PState) : PState :=
  let lines := jsSplitChar markdown '\n'
  let pot := fbCollect rng lines ps.ctr
  { receipt := { ps.receipt with items := ps.receipt.items ++ fbDedup pot.1 [] },
    ctr := pot.2 }

/-! ## `parseMarkdown` -/

/-- `OCRService.parseMarkdown`: the ordered strategy pipeline over one raw
text.  `rng` supplies the random item-code suffixes, `clock` the
`processing_info` timestamp. -/
def parseMarkdown (rng : Rng) (clock : String) (markdown : String) : ParseResult :=
  let lines := jsSplitChar markdown '\n'
  let ps0 : PState := ⟨initReceipt, 0⟩
  let ps1 := extractStructuredData rng lines ps0
  let ps2 := extractLineData rng lines ps1
  let ps3 := extractPatternData markdown ps2
  let ps4 :=
    if ps3.receipt.items.length = 0 then extractItemsFallback rng markdown ps3 else ps3
  { receipt := ps4.receipt, raw_markdown := markdown, confidence_score := none,
    processing_time := none, timestamp := clock, version := "1.0.0",
    ocr_model := "Llama-3.2-11B-Vision", parser_version := "1.0.0" }

/-! ## Erasure of item codes and concrete inputs for the claims -/

/-- Erase the (randomly suffixed) item code of one item. -/
def eraseI (it : LineItem) : LineItem := { it with item_code := "" }

/-- Erase every item code of a receipt. -/
def eraseR (r : Receipt) : Receipt := { r with items := r.items.map eraseI }

/-- The price-derivation invariant of every line item the engine builds:
the unit price is the stored total divided by the stored quantity, and it
is null exactly when the total is. -/
def itemPriceCoherent (it : LineItem) : Prop :=
  (it.total_price = none → it.unit_price = none) ∧
  ∀ t, it.total_price = some t → it.unit_price = some (t / it.quantity)

/-- Every item of a parse state satisfies the price-derivation
invariant. -/
def itemsCoherent (ps : PState) : Prop :=
  ∀ it ∈ ps.receipt.items, itemPriceCoherent it

/-- The merge policy the extractors actually implement: every scalar field
that holds a JavaScript-truthy value in `r₁` is unchanged in `r₂`.  Fields
written together under one guard (store name with chain, payment method
with card type, loyalty points with program) are frozen together. -/
def scalarsTruthyFrozen (r₁ r₂ : Receipt) : Prop :=
  (strOptTruthy r₁.metadata.date = true → r₂.metadata.date = r₁.metadata.date) ∧
  (strOptTruthy r₁.metadata.time = true → r₂.metadata.time = r₁.metadata.time) ∧
  (strOptTruthy r₁.store.name = true →
    r₂.store.name = r₁.store.name ∧ r₂.store.store_chain = r₁.store.store_chain) ∧
  (strOptTruthy r₁.store.address = true → r₂.store.address = r₁.store.address) ∧
  (strOptTruthy r₁.store.phone = true → r₂.store.phone = r₁.store.phone) ∧
  (strOptTruthy r₁.store.tax_id = true → r₂.store.tax_id = r₁.store.tax_id) ∧
  (numTruthy r₁.totals.total_amount = true →
    r₂.totals.total_amount = r₁.totals.total_amount) ∧
  (numTruthy r₁.totals.vat_amount = true → r₂.totals.vat_amount = r₁.totals.vat_amount) ∧
  (numTruthy r₁.totals.subtotal = true → r₂.totals.subtotal = r₁.totals.subtotal) ∧
  (strOptTruthy r₁.payment.method = true →
    r₂.payment.method = r₁.payment.method ∧ r₂.payment.card_type = r₁.payment.card_type) ∧
  (numTruthy r₁.payment.amount_paid = true →
    r₂.payment.amount_paid = r₁.payment.amount_paid) ∧
  (strOptTruthy r₁.cashier_info.start_time = true →
    r₂.cashier_info.start_time = r₁.cashier_info.start_time) ∧
  (strOptTruthy r₁.cashier_info.end_time = true →
    r₂.cashier_info.end_time = r₁.cashier_info.end_time) ∧
  (strOptTruthy r₁.cashier_info.cashier_number = true →
    r₂.cashier_info.cashier_number = r₁.cashier_info.cashier_number) ∧
  (strOptTruthy r₁.cashier_info.terminal_number = true →
    r₂.cashier_info.terminal_number = r₁.cashier_info.terminal_number) ∧
  (strOptTruthy r₁.fiscal_info.tse_signature = true →
    r₂.fiscal_info.tse_signature = r₁.fiscal_info.tse_signature) ∧
  (strOptTruthy r₁.fiscal_info.signature_counter = true →
    r₂.fiscal_info.signature_counter = r₁.fiscal_info.signature_counter) ∧
  (strOptTruthy r₁.fiscal_info.signature = true →
    r₂.fiscal_info.signature = r₁.fiscal_info.signature) ∧
  (intTruthy r₁.loyalty.points_earned = true →
    r₂.loyalty.points_earned = r₁.loyalty.points_earned ∧
    r₂.loyalty.program = r₁.loyalty.program)

/-- A fixed random suffix source for concrete runs. -/
def rng0 : Rng := fun _ => "XXXX"

/-- A fixed clock for concrete runs. -/
def clock0 : String := "2025-06-05T08:49:00.000Z"

/-- The single-item line of the specification example. -/
def gougaLine : String := "G&G Gouda 1,99 € x 2 3,98 €"

/-- The total line of the specification example. -/
def summeLine : String := "SUMME EUR 13,95"

/-- Two flat item lines that both match the item patterns. -/
def twoItemText : String := "AA 1,50 €\nBB 2,50 €"

/-- Two VAT lines; the first parses to the falsy amount `0`. -/
def vatText : String := "MWST 0\nMWST 5"

/-- One flat item line, for the item-invariant witnesses. -/
def oneItemText : String := "AA 1,50 €"

/-! ## The orchestrator (`MultiOCRService` in the source) -/

namespace Orchestrator

/-- A successful OCR result as the orchestrator sees it: the raw text and a
confidence value. -/
structure OCRResult where
  text : String
  confidence : Rat
deriving DecidableEq, Repr

/-- Outcome of one `processWithService` call: either the promise rejected
with an error message, or it resolved with a (possibly null) result. -/
inductive Outcome where
  | err (msg : String)
  | ok (res : Option OCRResult)
deriving DecidableEq, Repr

/-- The orchestrator configuration: primary and fallback service names and
the minimum-confidence threshold. -/
structure Config where
  primary : String
  fallback : String
  minConfidence : Rat
deriving DecidableEq, Repr

/-- The service table `this.services`, in insertion order, each service
paired with the outcome its `processWithService` call would produce in this
run.  Each service is invoked at most once per run in the source, so a fixed
outcome per service is faithful. -/
abbrev SvcTable := List (String × Outcome)

/-- `this.services[name]` lookup. -/
def lookupSvc (svcs : SvcTable) (n : String) : Option Outcome :=
  (svcs.find? (fun p => p.1 == n)).map (·.2)

/-- The value returned by `processImage`: the winning result with the
`service_used` and `fallback_used` fields the source spreads into it. -/
structure Final where
  res : OCRResult
  service_used : String
  fallback_used : Bool
deriving DecidableEq, Repr

/-- The error message of the terminal `throw` in `processImage`. -/
def allFailedMsg : String := "All OCR services failed to process the image"

/-- One step of the best-result tracking loop over the remaining services:
`if (result) { ... if (!bestResult || result.confidence > bestResult.confidence) ... }`. -/
def bestStep (best : Option (OCRResult × String)) (p : String × Outcome) :
    Option (OCRResult × String) :=
  match p.2 with
  | .ok (some r) =>
    match best with
    | none => some (r, p.1)
    | some b => if b.1.confidence < r.confidence then some (r, p.1) else some b
  | _ => best

/-- The services iterated by the `Try all available services` loop: every
entry whose name is neither the primary nor the fallback name. -/
def remainingSvcs (cfg : Config) (svcs : SvcTable) : SvcTable :=
  svcs.filter (fun p => !(p.1 == cfg.primary) && !(p.1 == cfg.fallback))

/-- Third stage of `processImage`: iterate the remaining services tracking
the best non-null result, then either return it or throw.  The second
component is the list of service names invoked by this stage. -/
def tryRemaining (cfg : Config) (svcs : SvcTable) (tr : List String) :
    Except String Final × List String :=
  match (remainingSvcs cfg svcs).foldl bestStep none with
  | some (r, nm) => (.ok ⟨r, nm, true⟩, tr ++ (remainingSvcs cfg svcs).map (·.1))
  | none => (.error allFailedMsg, tr ++ (remainingSvcs cfg svcs).map (·.1))

/-- Second stage of `processImage`: the fallback attempt (skipped when the
fallback name equals the primary name or the service is absent). -/
def tryFallback (cfg : Config) (svcs : SvcTable) (tr : List String) :
    Except String Final × List String :=
  if cfg.fallback == cfg.primary then tryRemaining cfg svcs tr
  else
    match lookupSvc svcs cfg.fallback with
    | some (.ok (some r)) =>
      if cfg.minConfidence ≤ r.confidence then
        (.ok ⟨r, cfg.fallback, true⟩, tr ++ [cfg.fallback])
      else tryRemaining cfg svcs (tr ++ [cfg.fallback])
    | some _ => tryRemaining cfg svcs (tr ++ [cfg.fallback])
    | none => tryRemaining cfg svcs tr

/-- `MultiOCRService.processImage`: primary attempt, fallback attempt, then
the remaining services; returns the decision together with the ordered list
of invoked service names (for the never-invoked properties). -/
def processImage (cfg : Config) (svcs : SvcTable) :
    Except String Final × List String :=
  match lookupSvc svcs cfg.primary with
  | some (.ok (some r)) =>
    if cfg.minConfidence ≤ r.confidence then
      (.ok ⟨r, cfg.primary, false⟩, [cfg.primary])
    else tryFallback cfg svcs [cfg.primary]
  | some _ => tryFallback cfg svcs [cfg.primary]
  | none => tryFallback cfg svcs []

/-- The primary attempt returns directly: the primary service exists, its
call resolves with a non-null result, and the confidence meets the
threshold. -/
def primaryHitB (cfg : Config) (svcs : SvcTable) : Bool :=
  match lookupSvc svcs cfg.primary with
  | some (.ok (some r)) => cfg.minConfidence ≤ r.confidence
  | _ => false

/-- The fallback attempt returns directly. -/
def fallbackHitB (cfg : Config) (svcs : SvcTable) : Bool :=
  if cfg.fallback == cfg.primary then false
  else
    match lookupSvc svcs cfg.fallback with
    | some (.ok (some r)) => cfg.minConfidence ≤ r.confidence
    | _ => false

/-- The non-error, non-null results of a service list, in order. -/
def candidatesOf (l : SvcTable) : List (String × OCRResult) :=
  l.filterMap
    (fun p => match p.2 with
      | .ok (some r) => some (p.1, r)
      | _ => none)

/-- The candidates the third stage can choose from: remaining services whose
call resolved with a non-null result, in attempt order. -/
def remainingCandidates (cfg : Config) (svcs : SvcTable) :
    List (String × OCRResult) :=
  candidatesOf (remainingSvcs cfg svcs)

/-- `bestStep` restated over candidates. -/
def bestCand (best : Option (OCRResult × String)) (c : String × OCRResult) :
    Option (OCRResult × String) :=
  match best with
  | none => some (c.2, c.1)
  | some b => if b.1.confidence < c.2.confidence then some (c.2, c.1) else some b

/-- Orchestrator configuration of the concrete scenarios: primary google,
fallback tesseract, threshold one half (the source defaults). -/
def cexCfg : Config := ⟨"google", "tesseract", mkRat 1 2⟩

/-- Decidable equality for the orchestrator decision. -/
instance : DecidableEq (Except String Final) := fun x y =>
  match x, y with
  | .ok a, .ok b =>
    if h : a = b then isTrue (by rw [h]) else isFalse (fun hh => h (Except.ok.inj hh))
  | .ok _, .error _ => isFalse (fun hh => Except.noConfusion hh)
  | .error _, .ok _ => isFalse (fun hh => Except.noConfusion hh)
  | .error a, .error b =>
    if h : a = b then isTrue (by rw [h]) else isFalse (fun hh => h (Except.error.inj hh))

/-- A below-threshold non-error primary result (confidence 2/5). -/
def gRes : OCRResult := ⟨"gtext", mkRat 2 5⟩

/-- A below-threshold non-error remaining result (confidence 3/10). -/
def aRes : OCRResult := ⟨"atext", mkRat 3 10⟩

/-- Scenario: primary low-confidence, remaining service lower-confidence,
fallback errors. -/
def cexSvcs1 : SvcTable :=
  [("google", .ok (some gRes)), ("azure", .ok (some aRes)), ("tesseract", .err "fail")]

/-- Scenario: primary low-confidence, fallback errors, no other service. -/
def cexSvcs2 : SvcTable :=
  [("google", .ok (some gRes)), ("tesseract", .err "fail")]

/-- An above-threshold primary result. -/
def gHi : OCRResult := ⟨"gt", mkRat 4 5⟩

/-- Scenario: primary above threshold; the fallback would be even better but
must not be consulted. -/
def hitSvcs : SvcTable :=
  [("google", .ok (some gHi)), ("tesseract", .ok (some ⟨"tt", mkRat 9 10⟩))]

/-- The best-result fold ignores error and null outcomes: it is the same
fold over the candidate list. -/
theorem foldl_bestStep_eq_bestCand (l : SvcTable) (b : Option (OCRResult × String)) :
    l.foldl bestStep b = (candidatesOf l).foldl bestCand b := by
  induction l generalizing b with
  | nil => simp [candidatesOf]
  | cons p t ih =>
    obtain ⟨nm, o⟩ := p
    cases o with
    | err m => simpa [candidatesOf, bestStep] using ih b
    | ok res =>
      cases res with
      | none => simpa [candidatesOf, bestStep] using ih b
      | some r =>
        have hstep : bestStep b (nm, Outcome.ok (some r)) = bestCand b (nm, r) := by
          cases b <;> rfl
        simp [candidatesOf, List.foldl_cons, hstep]
        exact ih _

/-- The strict-improvement record scan keeps the earliest maximum: from a
seeded state it either keeps the seed (everything at most the seed) or lands
on an element strictly above the seed, strictly above everything before it,
and at least everything after it. -/
theorem foldl_bestCand_spec (cs : List (String × OCRResult)) (b : OCRResult × String) :
    (cs.foldl bestCand (some b) = some b ∧
      ∀ d ∈ cs, d.2.confidence ≤ b.1.confidence) ∨
    (∃ pre c post, cs = pre ++ c :: post ∧
      cs.foldl bestCand (some b) = some (c.2, c.1) ∧
      b.1.confidence < c.2.confidence ∧
      (∀ d ∈ pre, d.2.confidence < c.2.confidence) ∧
      (∀ d ∈ post, d.2.confidence ≤ c.2.confidence)) := by
  induction cs generalizing b with
  | nil => left; simp
  | cons d t ih =>
    by_cases h : b.1.confidence < d.2.confidence
    · have hstep : bestCand (some b) d = some (d.2, d.1) := by simp [bestCand, h]
      rcases ih (d.2, d.1) with ⟨heq, hall⟩ | ⟨pre, c, post, hcs, heq, hlt, hpre, hpost⟩
      · right
        exact ⟨[], d, t, by simp, by simpa [hstep] using heq, h, by simp,
          by simpa using hall⟩
      · right
        refine ⟨d :: pre, c, post, by simp [hcs], by simpa [hstep] using heq,
          lt_trans h hlt, ?_, hpost⟩
        intro x hx
        rcases List.mem_cons.mp hx with hx | hx
        · simpa [hx] using hlt
        · exact hpre x hx
    · have hstep : bestCand (some b) d = some b := by simp [bestCand, h]
      rcases ih b with ⟨heq, hall⟩ | ⟨pre, c, post, hcs, heq, hlt, hpre, hpost⟩
      · left
        refine ⟨by simpa [hstep] using heq, ?_⟩
        intro x hx
        rcases List.mem_cons.mp hx with hx | hx
        · simpa [hx] using le_of_not_lt h
        · exact hall x hx
      · right
        refine ⟨d :: pre, c, post, by simp [hcs], by simpa [hstep] using heq, hlt, ?_, hpost⟩
        intro x hx
        rcases List.mem_cons.mp hx with hx | hx
        · exact hx ▸ lt_of_le_of_lt (le_of_not_lt h) hlt
        · exact hpre x hx

/-- From the empty seed on a non-empty candidate list, the record scan lands
on the earliest maximum. -/
theorem foldl_bestCand_none_spec (cs : List (String × OCRResult)) (h : cs ≠ []) :
    ∃ pre c post, cs = pre ++ c :: post ∧
      cs.foldl bestCand none = some (c.2, c.1) ∧
      (∀ d ∈ pre, d.2.confidence < c.2.confidence) ∧
      (∀ d ∈ post, d.2.confidence ≤ c.2.confidence) := by
  cases cs with
  | nil => exact absurd rfl h
  | cons d t =>
    have hstep : List.foldl bestCand none (d :: t) = List.foldl bestCand (some (d.2, d.1)) t :=
      rfl
    rcases foldl_bestCand_spec t (d.2, d.1) with ⟨heq, hall⟩ | ⟨pre, c, post, hcs, heq, hlt, hpre, hpost⟩
    · exact ⟨[], d, t, by simp, by simpa [hstep] using heq, by simp, by simpa using hall⟩
    · refine ⟨d :: pre, c, post, by simp [hcs], by simpa [hstep] using heq, ?_, hpost⟩
      intro x hx
      rcases List.mem_cons.mp hx with hx | hx
      · simpa [hx] using hlt
      · exact hpre x hx

/-- The record scan from the empty seed returns nothing exactly on the empty
list. -/
theorem foldl_bestCand_none_eq_none_iff (cs : List (String × OCRResult)) :
    cs.foldl bestCand none = none ↔ cs = [] := by
  constructor
  · intro h
    by_contra hne
    rcases foldl_bestCand_none_spec cs hne with ⟨pre, c, post, _, heq, _, _⟩
    rw [h] at heq
    exact Option.noConfusion heq
  · intro h; subst h; rfl

/-- The decision of the third stage does not depend on the trace
accumulator. -/
theorem tryRemaining_fst_tr (cfg : Config) (svcs : SvcTable) (tr : List String) :
    (tryRemaining cfg svcs tr).1 = (tryRemaining cfg svcs []).1 := by
  unfold tryRemaining
  cases h : (remainingSvcs cfg svcs).foldl bestStep none <;> simp [h]

/-- The third stage errs exactly when no remaining service produced a
non-error result, and then with the fixed message. -/
theorem tryRemaining_error_iff (cfg : Config) (svcs : SvcTable) (tr : List String)
    (m : String) :
    (tryRemaining cfg svcs tr).1 = .error m ↔
      (remainingCandidates cfg svcs = [] ∧ m = allFailedMsg) := by
  unfold tryRemaining
  rw [foldl_bestStep_eq_bestCand]
  constructor
  · intro h
    cases heq : (candidatesOf (remainingSvcs cfg svcs)).foldl bestCand none with
    | none =>
      refine ⟨(foldl_bestCand_none_eq_none_iff _).mp heq, ?_⟩
      rw [heq] at h
      simpa using h.symm
    | some v =>
      rw [heq] at h
      simp at h
  · rintro ⟨hc, rfl⟩
    have : (candidatesOf (remainingSvcs cfg svcs)).foldl bestCand none = none := by
      rw [show candidatesOf (remainingSvcs cfg svcs) = remainingCandidates cfg svcs from rfl, hc]
      rfl
    rw [this]

/-- When neither the primary nor the fallback attempt meets the threshold
directly, the decision is that of the third stage. -/
theorem processImage_fst_no_hits (cfg : Config) (svcs : SvcTable)
    (hp : primaryHitB cfg svcs = false) (hf : fallbackHitB cfg svcs = false) :
    (processImage cfg svcs).1 = (tryRemaining cfg svcs []).1 := by
  have hfall : ∀ tr, (tryFallback cfg svcs tr).1 = (tryRemaining cfg svcs []).1 := by
    intro tr
    unfold tryFallback
    by_cases hpf : (cfg.fallback == cfg.primary) = true
    · simp [hpf, tryRemaining_fst_tr]
    · simp only [Bool.not_eq_true] at hpf
      cases hL : lookupSvc svcs cfg.fallback with
      | none => simp [hpf, tryRemaining_fst_tr]
      | some o =>
        cases o with
        | err m => simp [hpf, tryRemaining_fst_tr]
        | ok res =>
          cases res with
          | none => simp [hpf, tryRemaining_fst_tr]
          | some r =>
            have hcf : ¬ cfg.minConfidence ≤ r.confidence := by
              simpa [fallbackHitB, hpf, hL] using hf
            simp [hpf, hcf, tryRemaining_fst_tr]
  unfold processImage
  cases hL : lookupSvc svcs cfg.primary with
  | none => simpa using hfall []
  | some o =>
    cases o with
    | err m => simpa using hfall [cfg.primary]
    | ok res =>
      cases res with
      | none => simpa using hfall [cfg.primary]
      | some r =>
        have hcp : ¬ cfg.minConfidence ≤ r.confidence := by
          simpa [primaryHitB, hL] using hp
        simpa [hcp] using hfall [cfg.primary]

/-- When the primary attempt meets the threshold, `processImage` returns it
at once. -/
theorem processImage_primary_hit (cfg : Config) (svcs : SvcTable) (r : OCRResult)
    (h : lookupSvc svcs cfg.primary = some (.ok (some r)))
    (hc : cfg.minConfidence ≤ r.confidence) :
    processImage cfg svcs = (.ok ⟨r, cfg.primary, false⟩, [cfg.primary]) := by
  unfold processImage
  rw [h]
  simp [hc]

/-- When the fallback attempt meets the threshold and the primary does not,
`processImage` returns the fallback result. -/
theorem processImage_fallback_hit (cfg : Config) (svcs : SvcTable) (r : OCRResult)
    (hp : primaryHitB cfg svcs = false)
    (hne : (cfg.fallback == cfg.primary) = false)
    (h : lookupSvc svcs cfg.fallback = some (.ok (some r)))
    (hc : cfg.minConfidence ≤ r.confidence) :
    (processImage cfg svcs).1 = .ok ⟨r, cfg.fallback, true⟩ := by
  have hfall : ∀ tr, (tryFallback cfg svcs tr).1 = .ok ⟨r, cfg.fallback, true⟩ := by
    intro tr
    unfold tryFallback
    simp [hne, h, hc]
  unfold processImage
  cases hL : lookupSvc svcs cfg.primary with
  | none => simpa using hfall []
  | some o =>
    cases o with
    | err m => simpa using hfall [cfg.primary]
    | ok res =>
      cases res with
      | none => simpa using hfall [cfg.primary]
      | some r2 =>
        have hcp : ¬ cfg.minConfidence ≤ r2.confidence := by
          simpa [primaryHitB, hL] using hp
        simpa [hcp] using hfall [cfg.primary]

/-- C1 (counterexample): with primary google at confidence 2/5 (below the
threshold 1/2), azure at 3/10, and tesseract erroring, `processImage`
returns the azure candidate even though the primary attempt produced a
non-error result of strictly higher confidence — the selection is not made
over all non-error attempts. -/
theorem C1_counterexample :
    (processImage cexCfg cexSvcs1).1 = .ok ⟨aRes, "azure", true⟩ ∧
    lookupSvc cexSvcs1 cexCfg.primary = some (.ok (some gRes)) ∧
    aRes.confidence < gRes.confidence ∧
    primaryHitB cexCfg cexSvcs1 = false ∧
    fallbackHitB cexCfg cexSvcs1 = false := by
  decide

/-- C1 (amended): when neither the primary nor the fallback attempt meets
the threshold and at least one remaining (non-primary, non-fallback)
backend produced a non-error result, `processImage` returns the
highest-confidence candidate among the remaining attempts only (earliest
attempt on exact ties); below-threshold primary and fallback results are
never selected. -/
theorem C1_selectBest_remaining (cfg : Config) (svcs : SvcTable)
    (hp : primaryHitB cfg svcs = false) (hf : fallbackHitB cfg svcs = false)
    (hne : remainingCandidates cfg svcs ≠ []) :
    ∃ pre c post, remainingCandidates cfg svcs = pre ++ c :: post ∧
      (processImage cfg svcs).1 = .ok ⟨c.2, c.1, true⟩ ∧
      (∀ d ∈ pre, d.2.confidence < c.2.confidence) ∧
      (∀ d ∈ post, d.2.confidence ≤ c.2.confidence) := by
  rcases foldl_bestCand_none_spec _ hne with ⟨pre, c, post, hcs, heq, hpre, hpost⟩
  refine ⟨pre, c, post, hcs, ?_, hpre, hpost⟩
  rw [processImage_fst_no_hits cfg svcs hp hf]
  unfold tryRemaining
  rw [foldl_bestStep_eq_bestCand]
  have heq2 : (candidatesOf (remainingSvcs cfg svcs)).foldl bestCand none = some (c.2, c.1) :=
    heq
  rw [heq2]

/-- Witness for the amended C1 at the concrete scenario. -/
theorem C1_selectBest_remaining_witness :
    ∃ pre c post, remainingCandidates cexCfg cexSvcs1 = pre ++ c :: post ∧
      (processImage cexCfg cexSvcs1).1 = .ok ⟨c.2, c.1, true⟩ ∧
      (∀ d ∈ pre, d.2.confidence < c.2.confidence) ∧
      (∀ d ∈ post, d.2.confidence ≤ c.2.confidence) :=
  C1_selectBest_remaining cexCfg cexSvcs1 (by decide) (by decide) (by decide)

/-- C2 (counterexample): with the primary producing a non-error
below-threshold result and the fallback erroring, `processImage` still
raises the all-backends-failed error, although a backend attempt produced a
non-error result. -/
theorem C2_counterexample :
    (processImage cexCfg cexSvcs2).1 = .error allFailedMsg ∧
    lookupSvc cexSvcs2 cexCfg.primary = some (.ok (some gRes)) := by
  decide

/-- C2 (amended): `processImage` raises an error exactly when neither the
primary nor the fallback attempt meets the threshold and no remaining
(non-primary, non-fallback) backend produced a non-error result; the error
is always the all-backends-failed message, so it is the only error
propagated.  A below-threshold result from primary or fallback does not
prevent the failure. -/
theorem C2_allFailed_iff (cfg : Config) (svcs : SvcTable) (m : String) :
    (processImage cfg svcs).1 = .error m ↔
      (primaryHitB cfg svcs = false ∧ fallbackHitB cfg svcs = false ∧
        remainingCandidates cfg svcs = [] ∧ m = allFailedMsg) := by
  constructor
  · intro h
    have hp : primaryHitB cfg svcs = false := by
      cases hq : primaryHitB cfg svcs with
      | false => rfl
      | true =>
        exfalso
        unfold primaryHitB at hq
        cases hL : lookupSvc svcs cfg.primary with
        | none => rw [hL] at hq; simp at hq
        | some o =>
          cases o with
          | err m2 => rw [hL] at hq; simp at hq
          | ok res =>
            cases res with
            | none => rw [hL] at hq; simp at hq
            | some r =>
              rw [hL] at hq
              simp only [decide_eq_true_eq] at hq
              have hh := processImage_primary_hit cfg svcs r hL hq
              rw [hh] at h
              simp at h
    have hf : fallbackHitB cfg svcs = false := by
      cases hq : fallbackHitB cfg svcs with
      | false => rfl
      | true =>
        exfalso
        unfold fallbackHitB at hq
        by_cases hpf : (cfg.fallback == cfg.primary) = true
        · rw [hpf] at hq; simp at hq
        · simp only [Bool.not_eq_true] at hpf
          rw [hpf] at hq
          simp only [Bool.false_eq_true, if_false] at hq
          cases hL : lookupSvc svcs cfg.fallback with
          | none => rw [hL] at hq; simp at hq
          | some o =>
            cases o with
            | err m2 => rw [hL] at hq; simp at hq
            | ok res =>
              cases res with
              | none => rw [hL] at hq; simp at hq
              | some r =>
                rw [hL] at hq
                simp only [decide_eq_true_eq] at hq
                have hh := processImage_fallback_hit cfg svcs r hp hpf hL hq
                rw [hh] at h
                simp at h
    have := (tryRemaining_error_iff cfg svcs [] m).mp
      (by rw [processImage_fst_no_hits cfg svcs hp hf] at h; exact h)
    exact ⟨hp, hf, this.1, this.2⟩
  · rintro ⟨hp, hf, hc, rfl⟩
    rw [processImage_fst_no_hits cfg svcs hp hf]
    exact (tryRemaining_error_iff cfg svcs [] allFailedMsg).mpr ⟨hc, rfl⟩

/-- C7: when the configured primary backend is available and its attempt
returns a non-null result meeting the threshold, `processImage` returns that
result with `service_used` the primary name and `fallback_used` false, and
the primary is the only backend invoked in the run. -/
theorem C7_primary_only (cfg : Config) (svcs : SvcTable) (r : OCRResult)
    (h : lookupSvc svcs cfg.primary = some (.ok (some r)))
    (hc : cfg.minConfidence ≤ r.confidence) :
    processImage cfg svcs = (.ok ⟨r, cfg.primary, false⟩, [cfg.primary]) :=
  processImage_primary_hit cfg svcs r h hc

/-- Witness for C7: primary google at 4/5 wins immediately; tesseract (at
9/10, which would be better) is never invoked. -/
theorem C7_primary_only_witness :
    processImage cexCfg hitSvcs = (.ok ⟨gHi, "google", false⟩, ["google"]) :=
  C7_primary_only cexCfg hitSvcs gHi (by decide) (by decide)

end Orchestrator

/-! ## Scalar preservation through the item-producing strategies -/

/-- Composing two item-only receipt updates is an item-only update. -/
theorem onlyItems_trans {r₁ r₂ r₃ : Receipt}
    (h₁ : r₁ = { r₂ with items := r₁.items })
    (h₂ : r₂ = { r₃ with items := r₂.items }) :
    r₁ = { r₃ with items := r₁.items } := by
  cases r₃
  cases r₂
  cases r₁
  simp_all

/-- `sdStepM` changes the receipt only by appending items. -/
theorem sdStepM_onlyItems (rng : Rng) (lines : List String) (i : Nat) (line : String)
    (st : SDState) (ps : PState) :
    (sdStepM rng lines i line st ps).2.receipt =
      { ps.receipt with items := (sdStepM rng lines i line st ps).2.receipt.items } := by
  unfold sdStepM
  repeat' split
  all_goals rfl

/-- `sdStepK` changes the receipt only by appending items. -/
theorem sdStepK_onlyItems (rng : Rng) (lines : List String) (i : Nat) (line : String)
    (st : SDState) (ps : PState) :
    (sdStepK rng lines i line st ps).2.receipt =
      { ps.receipt with items := (sdStepK rng lines i line st ps).2.receipt.items } := by
  unfold sdStepK
  dsimp only
  split
  · rfl
  · split
    · cases hpl : parseListItem rng ps.ctr line with
      | none => simpa [hpl] using sdStepM_onlyItems rng lines i line st ps
      | some it =>
        exact onlyItems_trans (by simpa [hpl] using sdStepM_onlyItems rng lines i line st (pushItem ps it)) rfl
    · exact sdStepM_onlyItems rng lines i line _ ps

/-- `sdStepH` changes the receipt only by appending items. -/
theorem sdStepH_onlyItems (rng : Rng) (lines : List String) (i : Nat) (line : String)
    (st : SDState) (ps : PState) :
    (sdStepH rng lines i line st ps).2.receipt =
      { ps.receipt with items := (sdStepH rng lines i line st ps).2.receipt.items } := by
  unfold sdStepH
  dsimp only
  split
  · rfl
  · split
    · split
      · cases hpl : parseTableRow rng ps.ctr (((jsSplitChar line '|').map jsTrim).filter (· ≠ "")) with
        | none => simpa [hpl] using sdStepK_onlyItems rng lines i line st ps
        | some it =>
          exact onlyItems_trans
            (by simpa [hpl] using sdStepK_onlyItems rng lines i line st (pushItem ps it)) rfl
      · exact sdStepK_onlyItems rng lines i line st ps
    · exact sdStepK_onlyItems rng lines i line _ ps

/-- `sdStepF` changes the receipt only by appending items. -/
theorem sdStepF_onlyItems (rng : Rng) (lines : List String) (i : Nat) (line : String)
    (st : SDState) (ps : PState) :
    (sdStepF rng lines i line st ps).2.receipt =
      { ps.receipt with items := (sdStepF rng lines i line st ps).2.receipt.items } := by
  unfold sdStepF
  dsimp only
  split
  · rfl
  · split
    · split
      · rfl
      · cases hpl : parseEDEKATableRow rng ps.ctr line with
        | none => simpa [hpl] using sdStepH_onlyItems rng lines i line st ps
        | some it =>
          exact onlyItems_trans
            (by simpa [hpl] using sdStepH_onlyItems rng lines i line st (pushItem ps it)) rfl
    · exact sdStepH_onlyItems rng lines i line st ps

/-- `sdStepC` changes the receipt only by appending items. -/
theorem sdStepC_onlyItems (rng : Rng) (lines : List String) (i : Nat) (line : String)
    (st : SDState) (ps : PState) :
    (sdStepC rng lines i line st ps).2.receipt =
      { ps.receipt with items := (sdStepC rng lines i line st ps).2.receipt.items } := by
  unfold sdStepC
  dsimp only
  split
  · rfl
  · split
    · split
      · split
        · rfl
        · rfl
      · rfl
    · exact sdStepF_onlyItems rng lines i line _ ps

/-- One loop iteration changes the receipt only by appending items. -/
theorem sdStep_onlyItems (rng : Rng) (lines : List String) (i : Nat) (line : String)
    (st : SDState) (ps : PState) :
    (sdStep rng lines i line st ps).2.receipt =
      { ps.receipt with items := (sdStep rng lines i line st ps).2.receipt.items } := by
  unfold sdStep
  dsimp only
  split
  · rfl
  · split
    · split
      · rfl
      · split
        · split
          · rfl
          · rfl
        · exact sdStepC_onlyItems rng lines i line _ ps
    · exact sdStepC_onlyItems rng lines i line st ps

/-- The whole structured-data loop changes the receipt only by appending
items. -/
theorem sdLoop_onlyItems (rng : Rng) (lines : List String) (fuel i : Nat)
    (st : SDState) (ps : PState) :
    (sdLoop rng lines fuel i st ps).receipt =
      { ps.receipt with items := (sdLoop rng lines fuel i st ps).receipt.items } := by
  induction fuel generalizing i st ps with
  | zero => rfl
  | succ fuel ih =>
    unfold sdLoop
    split
    · exact onlyItems_trans (ih _ _ _) (sdStep_onlyItems rng lines i _ st ps)
    · rfl

/-- `extractStructuredData` changes the receipt only by appending items. -/
theorem extractStructuredData_onlyItems (rng : Rng) (lines : List String) (ps : PState) :
    (extractStructuredData rng lines ps).receipt =
      { ps.receipt with items := (extractStructuredData rng lines ps).receipt.items } :=
  sdLoop_onlyItems rng lines (lines.length + 1) 0 initSD ps

/-- `extractItemsFallback` changes the receipt only by appending items. -/
theorem extractItemsFallback_onlyItems (rng : Rng) (markdown : String) (ps : PState) :
    (extractItemsFallback rng markdown ps).receipt =
      { ps.receipt with items := (extractItemsFallback rng markdown ps).receipt.items } :=
  rfl

/-- `extractTotalsL` never touches the currency (or VAT-rate) field. -/
theorem extractTotalsL_currency (line : String) (tt : Totals) :
    (extractTotalsL line tt).currency = tt.currency ∧
    (extractTotalsL line tt).vat_rate = tt.vat_rate := by
  unfold extractTotalsL
  dsimp only
  repeat' split
  all_goals exact ⟨rfl, rfl⟩

/-- `processLine` never touches the currency field. -/
theorem processLine_currency (rng : Rng) (line : String) (ps : PState) :
    (processLine rng line ps).receipt.totals.currency = ps.receipt.totals.currency := by
  unfold processLine
  dsimp only
  split
  · rfl
  · split
    · split <;> exact (extractTotalsL_currency _ _).1
    · exact (extractTotalsL_currency _ _).1

/-- `extractLineData` never touches the currency field. -/
theorem extractLineData_currency (rng : Rng) (lines : List String) (ps : PState) :
    (extractLineData rng lines ps).receipt.totals.currency = ps.receipt.totals.currency := by
  induction lines generalizing ps with
  | nil => rfl
  | cons l t ih =>
    exact (ih (processLine rng l ps)).trans (processLine_currency rng l ps)

/-- `extractPatternData` never touches the currency field. -/
theorem extractPatternData_currency (markdown : String) (ps : PState) :
    (extractPatternData markdown ps).receipt.totals.currency = ps.receipt.totals.currency := by
  unfold extractPatternData
  dsimp only
  repeat' split
  all_goals rfl

/-- Projection form of an item-only receipt update. -/
theorem onlyItems_proj {r₁ r₂ : Receipt} (h : r₁ = { r₂ with items := r₁.items }) :
    r₁.metadata = r₂.metadata ∧ r₁.store = r₂.store ∧ r₁.totals = r₂.totals ∧
    r₁.payment = r₂.payment ∧ r₁.cashier_info = r₂.cashier_info ∧
    r₁.fiscal_info = r₂.fiscal_info ∧ r₁.loyalty = r₂.loyalty := by
  rw [h]
  exact ⟨rfl, rfl, rfl, rfl, rfl, rfl, rfl⟩

/-- C4 (amended, part): the currency of every parse is the default EUR; no
strategy ever writes it. -/
theorem parseMarkdown_currency (rng : Rng) (clock markdown : String) :
    (parseMarkdown rng clock markdown).receipt.totals.currency = "EUR" := by
  unfold parseMarkdown
  dsimp only
  split
  · rw [(onlyItems_proj (extractItemsFallback_onlyItems rng markdown _)).2.2.1,
      extractPatternData_currency, extractLineData_currency,
      (onlyItems_proj (extractStructuredData_onlyItems rng _ _)).2.2.1]
    rfl
  · rw [extractPatternData_currency, extractLineData_currency,
      (onlyItems_proj (extractStructuredData_onlyItems rng _ _)).2.2.1]
    rfl

/-! ## The custom rational operations agree with the standard ones -/

/-- `ratAdd` is addition. -/
theorem ratAdd_eq (a b : Rat) : ratAdd a b = a + b := (Rat.add_def' a b).symm

/-- `ratMul` is multiplication. -/
theorem ratMul_eq (a b : Rat) : ratMul a b = a * b := by
  rw [ratMul, Rat.mul_def, Rat.normalize_eq_mkRat]

/-- `ratInv` is the inverse. -/
theorem ratInv_eq (a : Rat) : ratInv a = a⁻¹ := (Rat.inv_def a).symm

/-- `ratDiv` is division. -/
theorem ratDiv_eq (a b : Rat) : ratDiv a b = a / b := by
  rw [ratDiv, ratMul_eq, ratInv_eq, div_eq_mul_inv]

/-- `pow10` is the power of ten. -/
theorem pow10_eq (k : Nat) : pow10 k = (10 : Rat) ^ k := by
  induction k with
  | zero =>
    rw [pow_zero]
    decide
  | succ k ih =>
    rw [pow_succ, ← ih]
    have h10 : (10 : Rat) = mkRat 10 1 := by decide
    rw [h10, pow10, pow10, Rat.mkRat_mul_mkRat]
    congr 1 <;> (push_cast [pow_succ]; ring)

/-- One as a left unit of `ratMul`. -/
theorem ratMul_one_left (a : Rat) : ratMul 1 a = a := by
  rw [ratMul_eq, one_mul]

/-- `powZ 0` is one. -/
theorem powZ_zero : powZ 0 = 1 := by decide

/-! ## Digit-string lemmas for `parsePrice` -/

/-- A digit differs from any non-digit character. -/
theorem isDigit_ne_of {c x : Char} (h : c.isDigit = true) (hx : x.isDigit = false) :
    c ≠ x := by
  intro e
  subst e
  rw [h] at hx
  cases hx

/-- Digits are not whitespace. -/
theorem isDigit_not_ws {c : Char} (h : c.isDigit = true) : c.isWhitespace = false := by
  cases hw : c.isWhitespace with
  | false => rfl
  | true =>
    exfalso
    have hws : c = ' ' ∨ c = '\t' ∨ c = '\r' ∨ c = '\n' := by
      simpa [Char.isWhitespace, or_assoc] using hw
    rcases hws with h1 | h1 | h1 | h1 <;> (subst h1; revert h; decide)

/-- `removeEuroWs` keeps a string of digits and commas intact. -/
theorem removeEuroWs_digits (l : List Char) (h : ∀ c ∈ l, c.isDigit = true ∨ c = ',') :
    (removeEuroWs (String.mk l)).data = l := by
  show l.filter _ = l
  apply List.filter_eq_self.mpr
  intro c hc
  rcases h c hc with hd | hd
  · have h1 : c ≠ '€' := isDigit_ne_of hd (by decide)
    simp [isDigit_not_ws hd, h1]
  · subst hd
    decide

/-- `replaceFirstComma` replaces the comma after a comma-free prefix. -/
theorem replaceFirstComma_append (d₁ d₂ : List Char) (h : ∀ c ∈ d₁, c ≠ ',') :
    replaceFirstComma (d₁ ++ ',' :: d₂) = d₁ ++ '.' :: d₂ := by
  induction d₁ with
  | nil => simp [replaceFirstComma]
  | cons c rest ih =>
    have hc : c ≠ ',' := h c (by simp)
    rw [List.cons_append, replaceFirstComma, if_neg hc,
      ih (fun x hx => h x (by simp [hx])), List.cons_append]

/-- `takeWhile` and `dropWhile` on an all-true block followed by a failing
element. -/
theorem takeWhile_dropWhile_append {p : Char → Bool} (l₁ : List Char) (x : Char)
    (l₂ : List Char) (h : ∀ c ∈ l₁, p c = true) (hx : p x = false) :
    (l₁ ++ x :: l₂).takeWhile p = l₁ ∧ (l₁ ++ x :: l₂).dropWhile p = x :: l₂ := by
  induction l₁ with
  | nil => simp [List.takeWhile_cons, List.dropWhile_cons, hx]
  | cons c rest ih =>
    have hc : p c = true := h c (by simp)
    have := ih (fun y hy => h y (by simp [hy]))
    simp [List.takeWhile_cons, List.dropWhile_cons, hc, this.1, this.2]

/-- `takeWhile` and `dropWhile` on an all-true list. -/
theorem takeWhile_dropWhile_all {p : Char → Bool} (l : List Char)
    (h : ∀ c ∈ l, p c = true) :
    l.takeWhile p = l ∧ l.dropWhile p = [] := by
  induction l with
  | nil => simp
  | cons c rest ih =>
    have hc : p c = true := h c (by simp)
    have := ih (fun y hy => h y (by simp [hy]))
    simp [List.takeWhile_cons, List.dropWhile_cons, hc, this.1, this.2]

/-- `jsParseFloat` on an all-digit string with one interior dot. -/
theorem jsParseFloat_dot (d₁ d₂ : List Char) (h₁ : d₁ ≠ []) (h₂ : d₂ ≠ [])
    (hd₁ : ∀ c ∈ d₁, c.isDigit = true) (hd₂ : ∀ c ∈ d₂, c.isDigit = true) :
    jsParseFloat (String.mk (d₁ ++ '.' :: d₂)) =
      some ((digitsVal d₁ : Rat) + (digitsVal d₂ : Rat) / 10 ^ d₂.length) := by
  obtain ⟨c₀, rest₀, rfl⟩ : ∃ c₀ rest₀, d₁ = c₀ :: rest₀ := by
    cases d₁ with
    | nil => exact absurd rfl h₁
    | cons a b => exact ⟨a, b, rfl⟩
  have hc₀ : c₀.isDigit = true := hd₁ c₀ (by simp)
  have htd := takeWhile_dropWhile_append (p := fun x => x.isDigit) (c₀ :: rest₀) '.' d₂ hd₁
    (by decide)
  have htd₂ := takeWhile_dropWhile_all (p := fun x => x.isDigit) d₂ hd₂
  have hdw : List.dropWhile (fun x => x.isWhitespace) (c₀ :: (rest₀ ++ '.' :: d₂)) =
      c₀ :: (rest₀ ++ '.' :: d₂) := by
    rw [List.dropWhile_cons]
    simp only [isDigit_not_ws hc₀]
    simp
  have hsgn : parseSign (c₀ :: (rest₀ ++ '.' :: d₂)) = (1, c₀ :: (rest₀ ++ '.' :: d₂)) := by
    rw [parseSign, if_neg (isDigit_ne_of hc₀ (by decide)),
      if_neg (isDigit_ne_of hc₀ (by decide))]
  have hfrac : parseFrac ('.' :: d₂) = (d₂, []) := by
    rw [parseFrac, if_pos rfl, htd₂.1, htd₂.2]
  unfold jsParseFloat
  dsimp only
  try simp only [List.cons_append] at htd
  try simp only [List.cons_append]
  rw [hdw, hsgn]
  dsimp only
  rw [htd.1, htd.2, hfrac]
  dsimp only
  rw [if_neg (by simp [List.isEmpty_iff, h₂])]
  rw [show parseExpo [] = 0 from rfl]
  rw [ratMul_one_left, powZ_zero, ratMul_eq, mul_one, ratAdd_eq, ratDiv_eq, pow10_eq]

/-- C9: `parsePrice` maps a comma-decimal numeral `d₁,d₂` to the rational
`d₁ + d₂ / 10 ^ |d₂|`, maps a non-numeric string to null, and maps a
missing argument to null; being a total function it can never throw. -/
theorem C9_parsePrice :
    (∀ d₁ d₂ : List Char, d₁ ≠ [] → d₂ ≠ [] →
      (∀ c ∈ d₁, c.isDigit = true) → (∀ c ∈ d₂, c.isDigit = true) →
      parsePrice (some (String.mk (d₁ ++ ',' :: d₂))) =
        some ((digitsVal d₁ : Rat) + (digitsVal d₂ : Rat) / 10 ^ d₂.length)) ∧
    parsePrice (some "not a number") = none ∧
    parsePrice none = none := by
  refine ⟨?_, by decide, rfl⟩
  intro d₁ d₂ h₁ h₂ hd₁ hd₂
  unfold parsePrice
  dsimp only
  rw [if_neg (by
    intro h
    have : (d₁ ++ ',' :: d₂ : List Char) = [] := congrArg String.data h
    simp at this)]
  rw [show (removeEuroWs (String.mk (d₁ ++ ',' :: d₂))).data = d₁ ++ ',' :: d₂ from
    removeEuroWs_digits _ (by
      intro c hc
      rcases List.mem_append.mp hc with hcc | hcc
      · exact Or.inl (hd₁ c hcc)
      · rcases List.mem_cons.mp hcc with rfl | hcc
        · exact Or.inr rfl
        · exact Or.inl (hd₂ c hcc))]
  rw [replaceFirstComma_append d₁ d₂
    (fun c hc => isDigit_ne_of (hd₁ c hc) (by decide))]
  exact jsParseFloat_dot d₁ d₂ h₁ h₂ hd₁ hd₂

/-- Witness for C9 at `4,20`. -/
theorem C9_parsePrice_witness : parsePrice (some "4,20") = some ((4 : Rat) + 20 / 10 ^ 2) := by
  have h := C9_parsePrice.1 ['4'] ['2', '0'] (by decide) (by decide) (by decide) (by decide)
  simpa using h

/-- C3 (counterexample): on the text consisting of the single line
`G&G Gouda 1,99 € x 2 3,98 €`, extraction yields one item with quantity 1,
unit price 1.99 and total price 1.99 — the flat item pattern matches the
name against `G&G Gouda` and the first amount `1,99` as the line price, and
ignores the `x 2` multiplier and the `3,98` total, so the claimed
`quantity = 2` and `totalPrice ≈ 3.98` fail. -/
theorem C3_counterexample :
    ((parseMarkdown rng0 clock0 gougaLine).receipt.items.map
      (fun i => (i.product_name, i.quantity, i.unit_price, i.total_price))) =
      [("G&G Gouda", 1, some (mkRat 199 100), some (mkRat 199 100))] ∧
    (1 : Rat) ≠ 2 ∧ some (mkRat 199 100) ≠ some (mkRat 398 100) := by
  decide

/-- C3 (amended): on the text consisting of the single line
`G&G Gouda 1,99 € x 2 3,98 €`, extraction yields exactly one LineItem whose
productName is `G&G Gouda`, with quantity 1, unitPrice 1.99 and totalPrice
1.99 (the unit amount is taken as the line price; multiplier and line total
are not parsed by the flat item patterns). -/
theorem C3_flat_item :
    ((parseMarkdown rng0 clock0 gougaLine).receipt.items.map
      (fun i => (i.product_name, i.quantity, i.unit_price, i.total_price))) =
      [("G&G Gouda", 1, some (mkRat 199 100), some (mkRat 199 100))] := by
  decide

/-- Once the items list is non-empty, a line pass never adds an item (the
guard `items.length === 0` is re-checked per line). -/
theorem processLine_items_nonempty (rng : Rng) (line : String) (ps : PState)
    (h : ps.receipt.items ≠ []) :
    (processLine rng line ps).receipt.items = ps.receipt.items ∧
    (processLine rng line ps).ctr = ps.ctr := by
  unfold processLine
  dsimp only
  split
  · exact ⟨rfl, rfl⟩
  · split
    · next hlen =>
      exact absurd (List.length_eq_zero.mp hlen) h
    · exact ⟨rfl, rfl⟩

/-- `extractItem` on the empty trimmed line yields nothing. -/
theorem extractItem_empty (rng : Rng) (n : Nat) : extractItem rng n "" = none := rfl

/-- With an empty items list, a line pass contributes exactly the item of
this line (if any), and consumes a code only when it does. -/
theorem processLine_items_empty (rng : Rng) (line : String) (ps : PState)
    (h : ps.receipt.items = []) :
    (processLine rng line ps).receipt.items =
      (extractItem rng ps.ctr (jsTrim line)).toList ∧
    (extractItem rng ps.ctr (jsTrim line) = none →
      (processLine rng line ps).ctr = ps.ctr) := by
  unfold processLine
  dsimp only
  split
  · next hempty =>
    rw [hempty, extractItem_empty]
    exact ⟨h, fun _ => rfl⟩
  · split
    · cases hE : extractItem rng ps.ctr (jsTrim line) with
      | none => simpa [hE, h] using fun _ => rfl
      | some it => simp [hE, h]
    · next hlen =>
      exact absurd h (fun hh => hlen (by rw [hh]; rfl))

/-- The whole line pass leaves a non-empty items list unchanged. -/
theorem extractLineData_items_nonempty (rng : Rng) (lines : List String) (ps : PState)
    (h : ps.receipt.items ≠ []) :
    (extractLineData rng lines ps).receipt.items = ps.receipt.items := by
  induction lines generalizing ps with
  | nil => rfl
  | cons l t ih =>
    have hp := processLine_items_nonempty rng l ps h
    calc (extractLineData rng t (processLine rng l ps)).receipt.items
        = (processLine rng l ps).receipt.items := ih _ (by rw [hp.1]; exact h)
      _ = ps.receipt.items := hp.1

/-- C5 (amended): starting from an empty items list, the line-by-line item
extraction emits at most one LineItem — the one from the first line whose
trimmed text matches the item patterns (lines matching the header/total
keyword dictionary excluded inside `extractItem`); once an item exists, no
further line is turned into an item. -/
theorem C5_first_match_only (rng : Rng) (lines : List String) (ps : PState)
    (h : ps.receipt.items = []) :
    (extractLineData rng lines ps).receipt.items =
      (lines.findSome? (fun l => extractItem rng ps.ctr (jsTrim l))).toList := by
  induction lines generalizing ps with
  | nil => simpa using h
  | cons l t ih =>
    have hp := processLine_items_empty rng l ps h
    cases hE : extractItem rng ps.ctr (jsTrim l) with
    | none =>
      have hctr : (processLine rng l ps).ctr = ps.ctr := hp.2 hE
      have hitems : (processLine rng l ps).receipt.items = [] := by
        rw [hp.1, hE]; rfl
      rw [extractLineData, List.foldl_cons, ← extractLineData]
      rw [ih _ hitems, hctr, List.findSome?_cons, hE]
    | some it =>
      have hitems : (processLine rng l ps).receipt.items = [it] := by
        rw [hp.1, hE]; rfl
      rw [extractLineData, List.foldl_cons, ← extractLineData]
      rw [extractLineData_items_nonempty rng t _ (by rw [hitems]; simp), hitems,
        List.findSome?_cons, hE]
      rfl

/-- Witness for the amended C5: on the two matching lines `AA 1,50 €` and
`BB 2,50 €` only the first produces an item. -/
theorem C5_first_match_only_witness :
    (extractLineData rng0 ["AA 1,50 €", "BB 2,50 €"] ⟨initReceipt, 0⟩).receipt.items =
      ((["AA 1,50 €", "BB 2,50 €"] : List String).findSome?
        (fun l => extractItem rng0 0 (jsTrim l))).toList :=
  C5_first_match_only rng0 ["AA 1,50 €", "BB 2,50 €"] ⟨initReceipt, 0⟩ rfl

/-- C5 (counterexample): both lines of the two-line input match the item
patterns, yet the full pipeline emits only the item of the first line, so
the fallback does not emit one LineItem per matching line. -/
theorem C5_counterexample :
    ((parseMarkdown rng0 clock0 twoItemText).receipt.items.map (·.product_name)) = ["AA"] ∧
    (extractItem rng0 1 "BB 2,50 €").isSome = true := by
  decide

/-- C4 (counterexample): on the text consisting of the single line
`SUMME EUR 13,95`, the total stays null — no total pattern tolerates the
currency word between the label and the amount — refuting
`totals.totalAmount == 13.95`. -/
theorem C4_counterexample :
    (parseMarkdown rng0 clock0 summeLine).receipt.totals.total_amount = none ∧
    (none : Option Rat) ≠ some (mkRat 1395 100) := by
  decide

/-- C4 (amended): extraction of a text containing only `SUMME EUR 13,95`
leaves `totals.totalAmount` null (no pattern allows a currency token
between label and amount), while `totals.currency` is `EUR` on every input,
being the never-overwritten default. -/
theorem C4_summe_eur (rng : Rng) (clock markdown : String) :
    (parseMarkdown rng clock markdown).receipt.totals.currency = "EUR" ∧
    (parseMarkdown rng0 clock0 summeLine).receipt.totals.total_amount = none :=
  ⟨parseMarkdown_currency rng clock markdown, by decide⟩

/-! ## C10: the unit price is always derived from the stored total -/

/-- The `unitOf`/`totalOf` pair built from one parsed price is always
coherent: the unit value is the total divided by the quantity and is null
exactly when the total is. -/
theorem unitOf_totalOf_coherent (price : Option Rat) (q : Rat) :
    (totalOf price = none → unitOf price q = none) ∧
    ∀ t, totalOf price = some t → unitOf price q = some (t / q) := by
  cases price with
  | none => exact ⟨fun _ => rfl, fun t ht => Option.noConfusion ht⟩
  | some p =>
    by_cases hp : p = 0
    · refine ⟨fun _ => ?_, fun t ht => ?_⟩
      · simp [unitOf, hp]
      · simp [totalOf, hp] at ht
    · refine ⟨fun hn => ?_, fun t ht => ?_⟩
      · simp [totalOf, hp] at hn
      · simp only [totalOf, if_neg hp, Option.some.injEq] at ht
        subst ht
        simp [unitOf, hp, ratDiv_eq]

/-- An item whose price fields are a `unitOf`/`totalOf` pair over its own
quantity is coherent. -/
theorem coherent_of_unitOf {it : LineItem} {price : Option Rat}
    (hu : it.unit_price = unitOf price it.quantity)
    (ht : it.total_price = totalOf price) :
    itemPriceCoherent it := by
  unfold itemPriceCoherent
  constructor
  · intro h
    rw [hu]
    exact (unitOf_totalOf_coherent price it.quantity).1 (ht.symm.trans h)
  · intro t h
    rw [hu]
    exact (unitOf_totalOf_coherent price it.quantity).2 t (ht.symm.trans h)

/-- Items built by `itemFromCaps` are coherent (the source stores
`price / quantity` next to `price`). -/
theorem itemFromCaps_coherent {rng : Rng} {n : Nat} {line : String} {caps : Caps}
    {it : LineItem} (h : itemFromCaps rng n line caps = some it) :
    itemPriceCoherent it := by
  unfold itemFromCaps at h
  dsimp only at h
  split at h
  · split at h
    · injection h with h
      subst h
      unfold itemPriceCoherent
      refine ⟨fun hc => Option.noConfusion hc, fun t htp => ?_⟩
      dsimp only at htp ⊢
      injection htp with htp
      subst htp
      rw [ratDiv_eq]
    · exact Option.noConfusion h
  · exact Option.noConfusion h

/-- Items produced by the `extractItem` pattern loop are coherent. -/
theorem itemTry_coherent (rng : Rng) (n : Nat) (line : String) :
    ∀ (pats : List (List RElem)) (it : LineItem),
      itemTry rng n line pats = some it → itemPriceCoherent it := by
  intro pats
  induction pats with
  | nil => exact fun it h => Option.noConfusion h
  | cons p rest ih =>
    intro it h
    rw [itemTry] at h
    split at h
    · split at h
      · rename_i it2 hf
        injection h with h
        subst h
        exact itemFromCaps_coherent hf
      · exact ih it h
    · exact ih it h

/-- Items produced by `extractItem` are coherent. -/
theorem extractItem_coherent {rng : Rng} {n : Nat} {line : String}
    {it : LineItem} (h : extractItem rng n line = some it) :
    itemPriceCoherent it := by
  unfold extractItem at h
  split at h
  · exact Option.noConfusion h
  · exact itemTry_coherent rng n line _ it h

/-- Items produced by `parseEDEKATableRow` are coherent. -/
theorem parseEDEKATableRow_coherent {rng : Rng} {n : Nat} {line : String}
    {it : LineItem} (h : parseEDEKATableRow rng n line = some it) :
    itemPriceCoherent it := by
  unfold parseEDEKATableRow at h
  dsimp only at h
  split at h
  · exact Option.noConfusion h
  · split at h
    · split at h
      · exact Option.noConfusion h
      · injection h with h
        subst h
        exact coherent_of_unitOf rfl rfl
    · exact Option.noConfusion h

/-- Items produced by `parseTableRow` are coherent. -/
theorem parseTableRow_coherent {rng : Rng} {n : Nat} {columns : List String}
    {it : LineItem} (h : parseTableRow rng n columns = some it) :
    itemPriceCoherent it := by
  unfold parseTableRow at h
  dsimp only at h
  split at h
  · exact Option.noConfusion h
  · injection h with h
    subst h
    exact coherent_of_unitOf rfl rfl

/-- Items produced by `parseListItem` are coherent. -/
theorem parseListItem_coherent {rng : Rng} {n : Nat} {line : String}
    {it : LineItem} (h : parseListItem rng n line = some it) :
    itemPriceCoherent it := by
  unfold parseListItem at h
  dsimp only at h
  split at h
  · injection h with h
    subst h
    exact coherent_of_unitOf rfl rfl
  · split at h
    · injection h with h
      subst h
      exact coherent_of_unitOf rfl rfl
    · split at h
      · injection h with h
        subst h
        exact coherent_of_unitOf rfl rfl
      · exact Option.noConfusion h

/-- Items produced by `parseNewListItem` are coherent. -/
theorem parseNewListItem_coherent {rng : Rng} {n : Nat} {line : String}
    {lines : List String} {i : Nat} {it : LineItem}
    (h : parseNewListItem rng n line lines i = some it) :
    itemPriceCoherent it := by
  unfold parseNewListItem at h
  dsimp only at h
  split at h
  · injection h with h
    subst h
    exact coherent_of_unitOf rfl rfl
  · exact Option.noConfusion h

/-- Pushing a coherent item preserves state coherence. -/
theorem pushItem_coherent {ps : PState} {it : LineItem}
    (h : itemsCoherent ps) (hit : itemPriceCoherent it) :
    itemsCoherent (pushItem ps it) := by
  intro x hx
  unfold pushItem at hx
  dsimp only at hx
  rcases List.mem_append.mp hx with hx | hx
  · exact h x hx
  · rw [List.mem_singleton] at hx
    subst hx
    exact hit

/-- `sdStepM` preserves item coherence. -/
theorem sdStepM_coherent (rng : Rng) (lines : List String) (i : Nat) (line : String)
    (st : SDState) (ps : PState) (h : itemsCoherent ps) :
    itemsCoherent (sdStepM rng lines i line st ps).2 := by
  unfold sdStepM
  try dsimp only
  split
  · exact h
  · split
    · split
      · rename_i it hit
        exact pushItem_coherent h (parseNewListItem_coherent hit)
      · exact h
    · split
      · exact h
      · exact h

/-- `sdStepK` preserves item coherence. -/
theorem sdStepK_coherent (rng : Rng) (lines : List String) (i : Nat) (line : String)
    (st : SDState) (ps : PState) (h : itemsCoherent ps) :
    itemsCoherent (sdStepK rng lines i line st ps).2 := by
  unfold sdStepK
  try dsimp only
  split
  · exact h
  · split
    · split
      · rename_i it hit
        exact sdStepM_coherent rng lines i line st _
          (pushItem_coherent h (parseListItem_coherent hit))
      · exact sdStepM_coherent rng lines i line st ps h
    · exact sdStepM_coherent rng lines i line _ ps h

/-- `sdStepH` preserves item coherence. -/
theorem sdStepH_coherent (rng : Rng) (lines : List String) (i : Nat) (line : String)
    (st : SDState) (ps : PState) (h : itemsCoherent ps) :
    itemsCoherent (sdStepH rng lines i line st ps).2 := by
  unfold sdStepH
  try dsimp only
  split
  · exact h
  · split
    · split
      · split
        · rename_i it hit
          exact sdStepK_coherent rng lines i line st _
            (pushItem_coherent h (parseTableRow_coherent hit))
        · exact sdStepK_coherent rng lines i line st ps h
      · exact sdStepK_coherent rng lines i line st ps h
    · exact sdStepK_coherent rng lines i line _ ps h

/-- `sdStepF` preserves item coherence. -/
theorem sdStepF_coherent (rng : Rng) (lines : List String) (i : Nat) (line : String)
    (st : SDState) (ps : PState) (h : itemsCoherent ps) :
    itemsCoherent (sdStepF rng lines i line st ps).2 := by
  unfold sdStepF
  try dsimp only
  split
  · exact h
  · split
    · split
      · exact h
      · split
        · rename_i it hit
          exact sdStepH_coherent rng lines i line st _
            (pushItem_coherent h (parseEDEKATableRow_coherent hit))
        · exact sdStepH_coherent rng lines i line st ps h
    · exact sdStepH_coherent rng lines i line st ps h

/-- `sdStepC` preserves item coherence. -/
theorem sdStepC_coherent (rng : Rng) (lines : List String) (i : Nat) (line : String)
    (st : SDState) (ps : PState) (h : itemsCoherent ps) :
    itemsCoherent (sdStepC rng lines i line st ps).2 := by
  unfold sdStepC
  try dsimp only
  split
  · exact h
  · split
    · split
      · split
        · exact pushItem_coherent h (coherent_of_unitOf rfl rfl)
        · exact h
      · exact h
    · exact sdStepF_coherent rng lines i line _ ps h

/-- One structured-data iteration preserves item coherence. -/
theorem sdStep_coherent (rng : Rng) (lines : List String) (i : Nat) (line : String)
    (st : SDState) (ps : PState) (h : itemsCoherent ps) :
    itemsCoherent (sdStep rng lines i line st ps).2 := by
  unfold sdStep
  try dsimp only
  split
  · exact h
  · split
    · split
      · exact h
      · split
        · split
          · exact pushItem_coherent h (coherent_of_unitOf rfl rfl)
          · exact h
        · exact sdStepC_coherent rng lines i line _ ps h
    · exact sdStepC_coherent rng lines i line st ps h

/-- The structured-data loop preserves item coherence. -/
theorem sdLoop_coherent (rng : Rng) (lines : List String) (fuel : Nat) :
    ∀ (i : Nat) (st : SDState) (ps : PState), itemsCoherent ps →
      itemsCoherent (sdLoop rng lines fuel i st ps) := by
  induction fuel with
  | zero => exact fun i st ps h => h
  | succ fuel ih =>
    intro i st ps h
    unfold sdLoop
    split
    · exact ih _ _ _ (sdStep_coherent rng lines i _ st ps h)
    · exact h

/-- `extractStructuredData` preserves item coherence. -/
theorem extractStructuredData_coherent (rng : Rng) (lines : List String) (ps : PState)
    (h : itemsCoherent ps) : itemsCoherent (extractStructuredData rng lines ps) :=
  sdLoop_coherent rng lines (lines.length + 1) 0 initSD ps h

/-- `processLine` preserves item coherence. -/
theorem processLine_coherent (rng : Rng) (line : String) (ps : PState)
    (h : itemsCoherent ps) : itemsCoherent (processLine rng line ps) := by
  unfold processLine
  try dsimp only
  split
  · exact h
  · split
    · split
      · rename_i it hit
        intro x hx
        dsimp only at hx
        rcases List.mem_append.mp hx with hx | hx
        · exact h x hx
        · rw [List.mem_singleton] at hx
          subst hx
          exact extractItem_coherent hit
      · exact h
    · exact h

/-- `extractLineData` preserves item coherence. -/
theorem extractLineData_coherent (rng : Rng) (lines : List String) :
    ∀ ps : PState, itemsCoherent ps → itemsCoherent (extractLineData rng lines ps) := by
  induction lines with
  | nil => exact fun ps h => h
  | cons l t ih =>
    intro ps h
    exact ih (processLine rng l ps) (processLine_coherent rng l ps h)

/-- `extractPatternData` leaves the items untouched. -/
theorem extractPatternData_items (markdown : String) (ps : PState) :
    (extractPatternData markdown ps).receipt.items = ps.receipt.items := rfl

/-- Every fallback potential item is coherent. -/
theorem fbBuild_coherent (rng : Rng) (n : Nat) (t : String) (caps : Caps) :
    itemPriceCoherent (fbBuild rng n t caps) :=
  coherent_of_unitOf rfl rfl

/-- The fallback pattern loop yields coherent items. -/
theorem fbTryPatterns_coherent (rng : Rng) (n : Nat) (t : String) :
    ∀ (pats : List (List RElem)) (it : LineItem),
      fbTryPatterns rng n t pats = some it → itemPriceCoherent it := by
  intro pats
  induction pats with
  | nil => exact fun it h => Option.noConfusion h
  | cons p rest ih =>
    intro it h
    rw [fbTryPatterns] at h
    split at h
    · split at h
      · exact ih it h
      · injection h with h
        subst h
        exact fbBuild_coherent rng n t _
    · exact ih it h

/-- Every collected fallback item is coherent. -/
theorem fbCollect_coherent (rng : Rng) :
    ∀ (ls : List String) (n : Nat) (it : LineItem),
      it ∈ (fbCollect rng ls n).1 → itemPriceCoherent it := by
  intro ls
  induction ls with
  | nil => intro n it h; exact absurd h (List.not_mem_nil it)
  | cons l rest ih =>
    intro n it h
    rw [fbCollect] at h
    split at h
    · exact ih n it h
    · split at h
      · rename_i it2 hf
        dsimp only at h
        rcases List.mem_cons.mp h with h | h
        · subst h
          exact fbTryPatterns_coherent rng n (jsTrim l) _ it hf
        · exact ih (n + 1) it h
      · exact ih n it h

/-- Deduplication only keeps items of the input list. -/
theorem fbDedup_subset : ∀ (l : List LineItem) (seen : List String) (it : LineItem),
    it ∈ fbDedup l seen → it ∈ l := by
  intro l
  induction l with
  | nil => intro seen it h; exact absurd h (List.not_mem_nil it)
  | cons x rest ih =>
    intro seen it h
    rw [fbDedup] at h
    split at h
    · exact List.mem_cons_of_mem x (ih _ it h)
    · rcases List.mem_cons.mp h with h | h
      · subst h; exact List.mem_cons_self it rest
      · exact List.mem_cons_of_mem x (ih _ it h)

/-- `extractItemsFallback` preserves item coherence. -/
theorem extractItemsFallback_coherent (rng : Rng) (markdown : String) (ps : PState)
    (h : itemsCoherent ps) : itemsCoherent (extractItemsFallback rng markdown ps) := by
  intro x hx
  unfold extractItemsFallback at hx
  dsimp only at hx
  rcases List.mem_append.mp hx with hx | hx
  · exact h x hx
  · exact fbCollect_coherent rng _ ps.ctr x (fbDedup_subset _ [] x hx)

/-- The empty initial state is coherent. -/
theorem initPState_coherent : itemsCoherent ⟨initReceipt, 0⟩ := by
  intro x hx
  rw [show (⟨initReceipt, 0⟩ : PState).receipt.items = [] from rfl] at hx
  exact absurd hx (List.not_mem_nil x)

/-- C10: for every line item produced by any strategy of the extraction
engine, the unit price is derived, never independently observed: if the
stored total price is non-null, the unit price equals that total divided by
the stored quantity, and if the total price is null so is the unit
price. -/
theorem C10_unit_price_derived (rng : Rng) (clock markdown : String) :
    ∀ it ∈ (parseMarkdown rng clock markdown).receipt.items, itemPriceCoherent it := by
  unfold parseMarkdown
  try dsimp only
  have h3 : itemsCoherent
      (extractPatternData markdown
        (extractLineData rng (jsSplitChar markdown '\n')
          (extractStructuredData rng (jsSplitChar markdown '\n') ⟨initReceipt, 0⟩))) := by
    intro x hx
    rw [extractPatternData_items] at hx
    exact extractLineData_coherent rng _ _
      (extractStructuredData_coherent rng _ _ initPState_coherent) x hx
  split
  · exact extractItemsFallback_coherent rng markdown _ h3
  · exact h3

/-! ## C6: the merge policy is truthiness-guarded, not set-at-most-once -/

/-- Truthy date and time survive one `extractMetadata` line. -/
theorem extractMetadataL_frozen (line : String) (md : Metadata) :
    (strOptTruthy md.date = true → (extractMetadataL line md).date = md.date) ∧
    (strOptTruthy md.time = true → (extractMetadataL line md).time = md.time) := by
  constructor <;>
    (intro h; unfold extractMetadataL; try dsimp only) <;>
    cases hD : extractDate line <;>
    (try dsimp only) <;> (repeat' split) <;> simp_all

set_option maxHeartbeats 1000000 in
/-- Truthy store fields survive one `extractStoreInfo` line (name and chain
are written together under the name guard). -/
theorem extractStoreInfoL_frozen (line : String) (st : StoreInfo) :
    (strOptTruthy st.name = true →
      (extractStoreInfoL line st).name = st.name ∧
      (extractStoreInfoL line st).store_chain = st.store_chain) ∧
    (strOptTruthy st.address = true → (extractStoreInfoL line st).address = st.address) ∧
    (strOptTruthy st.phone = true → (extractStoreInfoL line st).phone = st.phone) ∧
    (strOptTruthy st.tax_id = true → (extractStoreInfoL line st).tax_id = st.tax_id) := by
  refine ⟨fun h => ?_, fun h => ?_, fun h => ?_, fun h => ?_⟩ <;>
    (unfold extractStoreInfoL; try dsimp only) <;>
    rcases hS : storeScan line storePatterns with _ | ⟨nm, ch⟩ <;>
    (try dsimp only) <;> (repeat' split) <;> first | rfl | simp_all

/-- Truthy totals survive one `extractTotals` line. -/
theorem extractTotalsL_frozen (line : String) (tt : Totals) :
    (numTruthy tt.total_amount = true →
      (extractTotalsL line tt).total_amount = tt.total_amount) ∧
    (numTruthy tt.vat_amount = true → (extractTotalsL line tt).vat_amount = tt.vat_amount) ∧
    (numTruthy tt.subtotal = true → (extractTotalsL line tt).subtotal = tt.subtotal) := by
  refine ⟨fun h => ?_, fun h => ?_, fun h => ?_⟩ <;>
    (unfold extractTotalsL; try dsimp only) <;>
    cases hT : extractTotal line <;>
    (try dsimp only) <;>
    cases hV : jsMatch true false reVat line <;>
    (try dsimp only) <;> (repeat' split) <;> simp_all

/-- Truthy payment fields survive one `extractPaymentInfo` line (method and
card type are written together under the method guard). -/
theorem extractPaymentInfoL_frozen (line : String) (pay : Payment) :
    (strOptTruthy pay.method = true →
      (extractPaymentInfoL line pay).method = pay.method ∧
      (extractPaymentInfoL line pay).card_type = pay.card_type) ∧
    (numTruthy pay.amount_paid = true →
      (extractPaymentInfoL line pay).amount_paid = pay.amount_paid) := by
  constructor
  · intro h
    unfold extractPaymentInfoL
    dsimp only
    rw [if_pos h]
    constructor <;> (repeat' split) <;> rfl
  · intro h
    unfold extractPaymentInfoL
    dsimp only
    by_cases hm : strOptTruthy pay.method = true
    · rw [if_pos hm, if_pos h]
    · rw [if_neg hm]
      by_cases hc : (ciIncludes line "visa" || ciIncludes line "ec" ||
          ciIncludes line "bar" || ciIncludes line "kartenzahlung") = true
      · rw [if_pos hc]
        by_cases hv : jsIncludes line "VISA" = true
        · rw [if_pos hv]
          dsimp only
          rw [if_pos h]
        · rw [if_neg hv]
          by_cases he : jsIncludes line "EC" = true
          · rw [if_pos he]
            dsimp only
            rw [if_pos h]
          · rw [if_neg he]
            dsimp only
            rw [if_pos h]
      · rw [if_neg hc, if_pos h]

/-- Truthy cashier fields survive one `extractCashierInfo` line. -/
theorem extractCashierInfoL_frozen (line : String) (ca : CashierInfo) :
    (strOptTruthy ca.start_time = true →
      (extractCashierInfoL line ca).start_time = ca.start_time) ∧
    (strOptTruthy ca.end_time = true →
      (extractCashierInfoL line ca).end_time = ca.end_time) ∧
    (strOptTruthy ca.cashier_number = true →
      (extractCashierInfoL line ca).cashier_number = ca.cashier_number) ∧
    (strOptTruthy ca.terminal_number = true →
      (extractCashierInfoL line ca).terminal_number = ca.terminal_number) := by
  refine ⟨fun h => ?_, fun h => ?_, fun h => ?_, fun h => ?_⟩ <;>
    (unfold extractCashierInfoL; dsimp only; repeat' split; all_goals simp_all)

/-- Truthy fiscal fields survive one `extractFiscalInfo` line. -/
theorem extractFiscalInfoL_frozen (line : String) (fi : FiscalInfo) :
    (strOptTruthy fi.tse_signature = true →
      (extractFiscalInfoL line fi).tse_signature = fi.tse_signature) ∧
    (strOptTruthy fi.signature_counter = true →
      (extractFiscalInfoL line fi).signature_counter = fi.signature_counter) ∧
    (strOptTruthy fi.signature = true →
      (extractFiscalInfoL line fi).signature = fi.signature) := by
  refine ⟨fun h => ?_, fun h => ?_, fun h => ?_⟩ <;>
    (unfold extractFiscalInfoL; dsimp only; repeat' split; all_goals simp_all)

/-- Truthy loyalty points survive one `extractLoyaltyInfo` line (points and
program are written together under the points guard). -/
theorem extractLoyaltyInfoL_frozen (line : String) (lo : Loyalty) :
    intTruthy lo.points_earned = true →
      (extractLoyaltyInfoL line lo).points_earned = lo.points_earned ∧
      (extractLoyaltyInfoL line lo).program = lo.program := by
  intro h
  unfold extractLoyaltyInfoL
  try dsimp only
  repeat' split
  all_goals simp_all

/-- `scalarsTruthyFrozen` is reflexive. -/
theorem scalarsTruthyFrozen_refl (r : Receipt) : scalarsTruthyFrozen r r := by
  unfold scalarsTruthyFrozen
  exact ⟨fun _ => rfl, fun _ => rfl, fun _ => ⟨rfl, rfl⟩, fun _ => rfl, fun _ => rfl,
    fun _ => rfl, fun _ => rfl, fun _ => rfl, fun _ => rfl, fun _ => ⟨rfl, rfl⟩,
    fun _ => rfl, fun _ => rfl, fun _ => rfl, fun _ => rfl, fun _ => rfl, fun _ => rfl,
    fun _ => rfl, fun _ => rfl, fun _ => ⟨rfl, rfl⟩⟩

/-- `scalarsTruthyFrozen` composes. -/
theorem scalarsTruthyFrozen_trans {r₁ r₂ r₃ : Receipt}
    (h₁ : scalarsTruthyFrozen r₁ r₂) (h₂ : scalarsTruthyFrozen r₂ r₃) :
    scalarsTruthyFrozen r₁ r₃ := by
  unfold scalarsTruthyFrozen at h₁ h₂ ⊢
  obtain ⟨a1, a2, a3, a4, a5, a6, a7, a8, a9, a10, a11, a12, a13, a14, a15, a16, a17,
    a18, a19⟩ := h₁
  obtain ⟨b1, b2, b3, b4, b5, b6, b7, b8, b9, b10, b11, b12, b13, b14, b15, b16, b17,
    b18, b19⟩ := h₂
  refine ⟨fun h => ?_, fun h => ?_, fun h => ?_, fun h => ?_, fun h => ?_, fun h => ?_,
    fun h => ?_, fun h => ?_, fun h => ?_, fun h => ?_, fun h => ?_, fun h => ?_,
    fun h => ?_, fun h => ?_, fun h => ?_, fun h => ?_, fun h => ?_, fun h => ?_,
    fun h => ?_⟩ <;> simp_all

/-- An items-only receipt update freezes every scalar. -/
theorem frozen_of_onlyItems {r₁ r₂ : Receipt} (h : r₂ = { r₁ with items := r₂.items }) :
    scalarsTruthyFrozen r₁ r₂ := by
  obtain ⟨hm, hs, ht, hp, hc, hf, hl⟩ := onlyItems_proj h
  unfold scalarsTruthyFrozen
  refine ⟨fun _ => ?_, fun _ => ?_, fun _ => ⟨?_, ?_⟩, fun _ => ?_, fun _ => ?_,
    fun _ => ?_, fun _ => ?_, fun _ => ?_, fun _ => ?_, fun _ => ⟨?_, ?_⟩, fun _ => ?_,
    fun _ => ?_, fun _ => ?_, fun _ => ?_, fun _ => ?_, fun _ => ?_, fun _ => ?_,
    fun _ => ?_, fun _ => ⟨?_, ?_⟩⟩ <;> simp only [hm, hs, ht, hp, hc, hf, hl]

/-- One `extractLineData` line freezes every truthy scalar. -/
theorem processLine_frozen (rng : Rng) (line : String) (ps : PState) :
    scalarsTruthyFrozen ps.receipt (processLine rng line ps).receipt := by
  have hm := extractMetadataL_frozen (jsTrim line) ps.receipt.metadata
  have hs := extractStoreInfoL_frozen (jsTrim line) ps.receipt.store
  have ht := extractTotalsL_frozen (jsTrim line) ps.receipt.totals
  have hp := extractPaymentInfoL_frozen (jsTrim line) ps.receipt.payment
  have hc := extractCashierInfoL_frozen (jsTrim line) ps.receipt.cashier_info
  have hf := extractFiscalInfoL_frozen (jsTrim line) ps.receipt.fiscal_info
  have hl := extractLoyaltyInfoL_frozen (jsTrim line) ps.receipt.loyalty
  unfold processLine
  dsimp only
  split
  · exact scalarsTruthyFrozen_refl _
  · split
    · split
      · exact ⟨hm.1, hm.2, hs.1, hs.2.1, hs.2.2.1, hs.2.2.2, ht.1, ht.2.1, ht.2.2,
          hp.1, hp.2, hc.1, hc.2.1, hc.2.2.1, hc.2.2.2, hf.1, hf.2.1, hf.2.2, hl⟩
      · exact ⟨hm.1, hm.2, hs.1, hs.2.1, hs.2.2.1, hs.2.2.2, ht.1, ht.2.1, ht.2.2,
          hp.1, hp.2, hc.1, hc.2.1, hc.2.2.1, hc.2.2.2, hf.1, hf.2.1, hf.2.2, hl⟩
    · exact ⟨hm.1, hm.2, hs.1, hs.2.1, hs.2.2.1, hs.2.2.2, ht.1, ht.2.1, ht.2.2,
        hp.1, hp.2, hc.1, hc.2.1, hc.2.2.1, hc.2.2.2, hf.1, hf.2.1, hf.2.2, hl⟩

/-- The whole per-line pass freezes every truthy scalar. -/
theorem extractLineData_frozen (rng : Rng) (lines : List String) :
    ∀ ps : PState, scalarsTruthyFrozen ps.receipt (extractLineData rng lines ps).receipt := by
  induction lines with
  | nil => exact fun ps => scalarsTruthyFrozen_refl _
  | cons l t ih =>
    intro ps
    exact scalarsTruthyFrozen_trans (processLine_frozen rng l ps) (ih (processLine rng l ps))

/-- The document-wide pattern pass freezes every truthy scalar. -/
theorem extractPatternData_frozen (markdown : String) (ps : PState) :
    scalarsTruthyFrozen ps.receipt (extractPatternData markdown ps).receipt := by
  unfold extractPatternData
  dsimp only
  unfold scalarsTruthyFrozen
  refine ⟨fun h => ?_, fun h => ?_, fun h => ⟨?_, ?_⟩, fun h => ?_, fun h => ?_,
    fun h => ?_, fun h => ?_, fun h => ?_, fun h => ?_, fun h => ⟨?_, ?_⟩, fun h => ?_,
    fun h => ?_, fun h => ?_, fun h => ?_, fun h => ?_, fun h => ?_, fun h => ?_,
    fun h => ?_, fun h => ⟨?_, ?_⟩⟩
  all_goals (repeat' split)
  all_goals simp_all

/-- C6 (amended): the merge policy of the strategy pipeline is guarded by
JavaScript truthiness, not by "still unset": every scalar field holding a
truthy value is left unchanged by each subsequent strategy stage and by
every further line of the per-line pass, so a truthy field is set at most
once; a field holding a falsy value (such as the number 0) counts as empty
and can be overwritten by a later match, refuting the literal
set-at-most-once reading. -/
theorem C6_truthy_frozen (rng : Rng) (lines : List String) (markdown : String)
    (ps : PState) :
    scalarsTruthyFrozen ps.receipt (extractStructuredData rng lines ps).receipt ∧
    scalarsTruthyFrozen ps.receipt (extractLineData rng lines ps).receipt ∧
    scalarsTruthyFrozen ps.receipt (extractPatternData markdown ps).receipt ∧
    scalarsTruthyFrozen ps.receipt (extractItemsFallback rng markdown ps).receipt :=
  ⟨frozen_of_onlyItems (extractStructuredData_onlyItems rng lines ps),
   extractLineData_frozen rng lines ps,
   extractPatternData_frozen markdown ps,
   frozen_of_onlyItems (extractItemsFallback_onlyItems rng markdown ps)⟩

/-- Witness for the amended C6: a truthy VAT amount of 7 survives the line
`MWST 5`. -/
theorem C6_truthy_frozen_witness :
    (extractLineData rng0 ["MWST 5"]
      ⟨{ initReceipt with
          totals := { initReceipt.totals with vat_amount := some (mkRat 7 1) } },
        0⟩).receipt.totals.vat_amount = some (mkRat 7 1) :=
  (C6_truthy_frozen rng0 ["MWST 5"] ""
      ⟨{ initReceipt with
          totals := { initReceipt.totals with vat_amount := some (mkRat 7 1) } },
        0⟩).2.1.2.2.2.2.2.2.2.1 (by decide)

/-- C6 (counterexample): the VAT amount is written twice on the two-line
input `MWST 0` / `MWST 5` — the first line sets it to the falsy value 0,
which the truthiness guard treats as unset, so the second line overwrites
it — refuting "each scalar field is set at most once" and "a later match
never overwrites a field already set". -/
theorem C6_counterexample :
    (parseMarkdown rng0 clock0 "MWST 0").receipt.totals.vat_amount = some (mkRat 0 1) ∧
    (parseMarkdown rng0 clock0 vatText).receipt.totals.vat_amount = some (mkRat 5 1) ∧
    some (mkRat 0 1) ≠ some (mkRat 5 1) := by
  decide

/-! ## C8: two-run determinism modulo item codes -/

/-- Scalar and erased-item components of an erased-receipt equality. -/
theorem eraseR_proj {r₁ r₂ : Receipt} (h : eraseR r₁ = eraseR r₂) :
    r₁.metadata = r₂.metadata ∧ r₁.store = r₂.store ∧ r₁.totals = r₂.totals ∧
    r₁.payment = r₂.payment ∧ r₁.cashier_info = r₂.cashier_info ∧
    r₁.fiscal_info = r₂.fiscal_info ∧ r₁.loyalty = r₂.loyalty ∧
    r₁.items.map eraseI = r₂.items.map eraseI := by
  cases r₁
  cases r₂
  unfold eraseR at h
  dsimp only at h ⊢
  simp only [Receipt.mk.injEq] at h
  exact ⟨h.1, h.2.1, h.2.2.2.1, h.2.2.2.2.1, h.2.2.2.2.2.1, h.2.2.2.2.2.2.1,
    h.2.2.2.2.2.2.2, h.2.2.1⟩

/-- Replacing the items of two receipts that are equal after erasure by two
lists that are equal after erasure keeps them equal after erasure. -/
theorem eraseR_congr {r₁ r₂ : Receipt} (h : eraseR r₁ = eraseR r₂)
    {l₁ l₂ : List LineItem} (hl : l₁.map eraseI = l₂.map eraseI) :
    eraseR { r₁ with items := l₁ } = eraseR { r₂ with items := l₂ } := by
  cases r₁
  cases r₂
  unfold eraseR at h ⊢
  simp_all

/-- Equal-after-erasure item lists give equal-after-erasure receipts when
every scalar component coincides. -/
theorem eraseR_mk_congr (m : Metadata) (s : StoreInfo) (t : Totals) (p : Payment)
    (c : CashierInfo) (f : FiscalInfo) (lo : Loyalty) {l₁ l₂ : List LineItem}
    (hl : l₁.map eraseI = l₂.map eraseI) :
    eraseR (Receipt.mk m s l₁ t p c f lo) = eraseR (Receipt.mk m s l₂ t p c f lo) := by
  unfold eraseR
  try dsimp only
  rw [hl]

/-- `itemFromCaps` does not depend on the random source or the counter,
except for the item code. -/
theorem itemFromCaps_erase (rng₁ rng₂ : Rng) (n₁ n₂ : Nat) (line : String) (caps : Caps) :
    Option.map eraseI (itemFromCaps rng₁ n₁ line caps) =
      Option.map eraseI (itemFromCaps rng₂ n₂ line caps) := by
  unfold itemFromCaps
  try dsimp only
  repeat' split
  all_goals rfl

/-- The `extractItem` pattern loop is random-independent after erasure. -/
theorem itemTry_erase (rng₁ rng₂ : Rng) (n₁ n₂ : Nat) (line : String) :
    ∀ pats : List (List RElem),
      Option.map eraseI (itemTry rng₁ n₁ line pats) =
        Option.map eraseI (itemTry rng₂ n₂ line pats) := by
  intro pats
  induction pats with
  | nil => rfl
  | cons p rest ih =>
    unfold itemTry
    split
    · rename_i caps hm
      have hpe := itemFromCaps_erase rng₁ rng₂ n₁ n₂ line caps
      cases h₁ : itemFromCaps rng₁ n₁ line caps <;>
        cases h₂ : itemFromCaps rng₂ n₂ line caps <;>
        rw [h₁, h₂] at hpe <;> simp_all
    · exact ih

/-- `extractItem` is random-independent after erasure. -/
theorem extractItem_erase (rng₁ rng₂ : Rng) (n₁ n₂ : Nat) (line : String) :
    Option.map eraseI (extractItem rng₁ n₁ line) =
      Option.map eraseI (extractItem rng₂ n₂ line) := by
  unfold extractItem
  split
  · rfl
  · exact itemTry_erase rng₁ rng₂ n₁ n₂ line _

/-- `parseEDEKATableRow` is random-independent after erasure. -/
theorem parseEDEKATableRow_erase (rng₁ rng₂ : Rng) (n₁ n₂ : Nat) (line : String) :
    Option.map eraseI (parseEDEKATableRow rng₁ n₁ line) =
      Option.map eraseI (parseEDEKATableRow rng₂ n₂ line) := by
  unfold parseEDEKATableRow
  try dsimp only
  repeat' split
  all_goals rfl

/-- `parseTableRow` is random-independent after erasure. -/
theorem parseTableRow_erase (rng₁ rng₂ : Rng) (n₁ n₂ : Nat) (columns : List String) :
    Option.map eraseI (parseTableRow rng₁ n₁ columns) =
      Option.map eraseI (parseTableRow rng₂ n₂ columns) := by
  unfold parseTableRow
  try dsimp only
  repeat' split
  all_goals rfl

/-- `parseListItem` is random-independent after erasure. -/
theorem parseListItem_erase (rng₁ rng₂ : Rng) (n₁ n₂ : Nat) (line : String) :
    Option.map eraseI (parseListItem rng₁ n₁ line) =
      Option.map eraseI (parseListItem rng₂ n₂ line) := by
  unfold parseListItem
  try dsimp only
  repeat' split
  all_goals rfl

/-- `parseNewListItem` is random-independent after erasure. -/
theorem parseNewListItem_erase (rng₁ rng₂ : Rng) (n₁ n₂ : Nat) (line : String)
    (lines : List String) (i : Nat) :
    Option.map eraseI (parseNewListItem rng₁ n₁ line lines i) =
      Option.map eraseI (parseNewListItem rng₂ n₂ line lines i) := by
  unfold parseNewListItem
  try dsimp only
  repeat' split
  all_goals rfl

/-- Pushing two items equal after erasure onto two related states keeps
the states related. -/
theorem pushItem_erase {ps₁ ps₂ : PState} {it₁ it₂ : LineItem}
    (h : eraseR ps₁.receipt = eraseR ps₂.receipt) (hc : ps₁.ctr = ps₂.ctr)
    (hi : eraseI it₁ = eraseI it₂) :
    eraseR (pushItem ps₁ it₁).receipt = eraseR (pushItem ps₂ it₂).receipt ∧
    (pushItem ps₁ it₁).ctr = (pushItem ps₂ it₂).ctr := by
  have hitems : ps₁.receipt.items.map eraseI = ps₂.receipt.items.map eraseI :=
    (eraseR_proj h).2.2.2.2.2.2.2
  constructor
  · exact eraseR_congr h
      (by simp only [List.map_append, List.map_cons, List.map_nil, hitems, hi])
  · dsimp only [pushItem]
    rw [hc]

/-- `sdStepM` preserves the erased relation (and the flags). -/
theorem sdStepM_erase (rng₁ rng₂ : Rng) (lines : List String) (i : Nat) (line : String)
    (st : SDState) (ps₁ ps₂ : PState)
    (h : eraseR ps₁.receipt = eraseR ps₂.receipt) (hc : ps₁.ctr = ps₂.ctr) :
    (sdStepM rng₁ lines i line st ps₁).1 = (sdStepM rng₂ lines i line st ps₂).1 ∧
    eraseR (sdStepM rng₁ lines i line st ps₁).2.receipt =
      eraseR (sdStepM rng₂ lines i line st ps₂).2.receipt ∧
    (sdStepM rng₁ lines i line st ps₁).2.ctr = (sdStepM rng₂ lines i line st ps₂).2.ctr := by
  unfold sdStepM
  try dsimp only
  rw [hc]
  split
  · exact ⟨rfl, h, hc⟩
  · split
    · have hpe := parseNewListItem_erase rng₁ rng₂ ps₂.ctr ps₂.ctr line lines i
      cases h₁ : parseNewListItem rng₁ ps₂.ctr line lines i <;>
        cases h₂ : parseNewListItem rng₂ ps₂.ctr line lines i <;>
        rw [h₁, h₂] at hpe <;> simp at hpe
      · exact ⟨rfl, h, hc⟩
      · rename_i it₁ it₂
        exact ⟨rfl, (pushItem_erase h hc hpe).1, (pushItem_erase h hc hpe).2⟩
    · split
      · exact ⟨rfl, h, hc⟩
      · exact ⟨rfl, h, hc⟩

/-- `sdStepK` preserves the erased relation. -/
theorem sdStepK_erase (rng₁ rng₂ : Rng) (lines : List String) (i : Nat) (line : String)
    (st : SDState) (ps₁ ps₂ : PState)
    (h : eraseR ps₁.receipt = eraseR ps₂.receipt) (hc : ps₁.ctr = ps₂.ctr) :
    (sdStepK rng₁ lines i line st ps₁).1 = (sdStepK rng₂ lines i line st ps₂).1 ∧
    eraseR (sdStepK rng₁ lines i line st ps₁).2.receipt =
      eraseR (sdStepK rng₂ lines i line st ps₂).2.receipt ∧
    (sdStepK rng₁ lines i line st ps₁).2.ctr = (sdStepK rng₂ lines i line st ps₂).2.ctr := by
  unfold sdStepK
  try dsimp only
  rw [hc]
  split
  · exact ⟨rfl, h, hc⟩
  · split
    · have hpe := parseListItem_erase rng₁ rng₂ ps₂.ctr ps₂.ctr line
      cases h₁ : parseListItem rng₁ ps₂.ctr line <;>
        cases h₂ : parseListItem rng₂ ps₂.ctr line <;>
        rw [h₁, h₂] at hpe <;> simp at hpe
      · exact sdStepM_erase rng₁ rng₂ lines i line st ps₁ ps₂ h hc
      · have hp := pushItem_erase h hc hpe
        exact sdStepM_erase rng₁ rng₂ lines i line st _ _ hp.1 hp.2
    · exact sdStepM_erase rng₁ rng₂ lines i line _ ps₁ ps₂ h hc

/-- `sdStepH` preserves the erased relation. -/
theorem sdStepH_erase (rng₁ rng₂ : Rng) (lines : List String) (i : Nat) (line : String)
    (st : SDState) (ps₁ ps₂ : PState)
    (h : eraseR ps₁.receipt = eraseR ps₂.receipt) (hc : ps₁.ctr = ps₂.ctr) :
    (sdStepH rng₁ lines i line st ps₁).1 = (sdStepH rng₂ lines i line st ps₂).1 ∧
    eraseR (sdStepH rng₁ lines i line st ps₁).2.receipt =
      eraseR (sdStepH rng₂ lines i line st ps₂).2.receipt ∧
    (sdStepH rng₁ lines i line st ps₁).2.ctr = (sdStepH rng₂ lines i line st ps₂).2.ctr := by
  unfold sdStepH
  try dsimp only
  rw [hc]
  split
  · exact ⟨rfl, h, hc⟩
  · split
    · split
      · have hpe := parseTableRow_erase rng₁ rng₂ ps₂.ctr ps₂.ctr
          (((jsSplitChar line '|').map jsTrim).filter (· ≠ ""))
        cases h₁ : parseTableRow rng₁ ps₂.ctr
            (((jsSplitChar line '|').map jsTrim).filter (· ≠ "")) <;>
          cases h₂ : parseTableRow rng₂ ps₂.ctr
            (((jsSplitChar line '|').map jsTrim).filter (· ≠ "")) <;>
          rw [h₁, h₂] at hpe <;> simp at hpe
        · exact sdStepK_erase rng₁ rng₂ lines i line st ps₁ ps₂ h hc
        · have hp := pushItem_erase h hc hpe
          exact sdStepK_erase rng₁ rng₂ lines i line st _ _ hp.1 hp.2
      · exact sdStepK_erase rng₁ rng₂ lines i line st ps₁ ps₂ h hc
    · exact sdStepK_erase rng₁ rng₂ lines i line _ ps₁ ps₂ h hc

/-- `sdStepF` preserves the erased relation. -/
theorem sdStepF_erase (rng₁ rng₂ : Rng) (lines : List String) (i : Nat) (line : String)
    (st : SDState) (ps₁ ps₂ : PState)
    (h : eraseR ps₁.receipt = eraseR ps₂.receipt) (hc : ps₁.ctr = ps₂.ctr) :
    (sdStepF rng₁ lines i line st ps₁).1 = (sdStepF rng₂ lines i line st ps₂).1 ∧
    eraseR (sdStepF rng₁ lines i line st ps₁).2.receipt =
      eraseR (sdStepF rng₂ lines i line st ps₂).2.receipt ∧
    (sdStepF rng₁ lines i line st ps₁).2.ctr = (sdStepF rng₂ lines i line st ps₂).2.ctr := by
  unfold sdStepF
  try dsimp only
  rw [hc]
  split
  · exact ⟨rfl, h, hc⟩
  · split
    · split
      · exact ⟨rfl, h, hc⟩
      · have hpe := parseEDEKATableRow_erase rng₁ rng₂ ps₂.ctr ps₂.ctr line
        cases h₁ : parseEDEKATableRow rng₁ ps₂.ctr line <;>
          cases h₂ : parseEDEKATableRow rng₂ ps₂.ctr line <;>
          rw [h₁, h₂] at hpe <;> simp at hpe
        · exact sdStepH_erase rng₁ rng₂ lines i line st ps₁ ps₂ h hc
        · have hp := pushItem_erase h hc hpe
          exact sdStepH_erase rng₁ rng₂ lines i line st _ _ hp.1 hp.2
    · exact sdStepH_erase rng₁ rng₂ lines i line st ps₁ ps₂ h hc

/-- `sdStepC` preserves the erased relation. -/
theorem sdStepC_erase (rng₁ rng₂ : Rng) (lines : List String) (i : Nat) (line : String)
    (st : SDState) (ps₁ ps₂ : PState)
    (h : eraseR ps₁.receipt = eraseR ps₂.receipt) (hc : ps₁.ctr = ps₂.ctr) :
    (sdStepC rng₁ lines i line st ps₁).1 = (sdStepC rng₂ lines i line st ps₂).1 ∧
    eraseR (sdStepC rng₁ lines i line st ps₁).2.receipt =
      eraseR (sdStepC rng₂ lines i line st ps₂).2.receipt ∧
    (sdStepC rng₁ lines i line st ps₁).2.ctr = (sdStepC rng₂ lines i line st ps₂).2.ctr := by
  unfold sdStepC
  try dsimp only
  rw [hc]
  split
  · exact ⟨rfl, h, hc⟩
  · split
    · split
      · split
        · refine ⟨rfl, (pushItem_erase h hc ?_).1, (pushItem_erase h hc ?_).2⟩ <;> rfl
        · exact ⟨rfl, h, hc⟩
      · exact ⟨rfl, h, hc⟩
    · exact sdStepF_erase rng₁ rng₂ lines i line _ ps₁ ps₂ h hc

/-- One structured-data iteration preserves the erased relation. -/
theorem sdStep_erase (rng₁ rng₂ : Rng) (lines : List String) (i : Nat) (line : String)
    (st : SDState) (ps₁ ps₂ : PState)
    (h : eraseR ps₁.receipt = eraseR ps₂.receipt) (hc : ps₁.ctr = ps₂.ctr) :
    (sdStep rng₁ lines i line st ps₁).1 = (sdStep rng₂ lines i line st ps₂).1 ∧
    eraseR (sdStep rng₁ lines i line st ps₁).2.receipt =
      eraseR (sdStep rng₂ lines i line st ps₂).2.receipt ∧
    (sdStep rng₁ lines i line st ps₁).2.ctr = (sdStep rng₂ lines i line st ps₂).2.ctr := by
  unfold sdStep
  try dsimp only
  rw [hc]
  split
  · exact ⟨rfl, h, hc⟩
  · split
    · split
      · exact ⟨rfl, h, hc⟩
      · split
        · split
          · refine ⟨rfl, (pushItem_erase h hc ?_).1, (pushItem_erase h hc ?_).2⟩ <;> rfl
          · exact ⟨rfl, h, hc⟩
        · exact sdStepC_erase rng₁ rng₂ lines i line _ ps₁ ps₂ h hc
    · exact sdStepC_erase rng₁ rng₂ lines i line st ps₁ ps₂ h hc

/-- The structured-data loop preserves the erased relation. -/
theorem sdLoop_erase (rng₁ rng₂ : Rng) (lines : List String) (fuel : Nat) :
    ∀ (i : Nat) (st : SDState) (ps₁ ps₂ : PState),
      eraseR ps₁.receipt = eraseR ps₂.receipt → ps₁.ctr = ps₂.ctr →
      eraseR (sdLoop rng₁ lines fuel i st ps₁).receipt =
        eraseR (sdLoop rng₂ lines fuel i st ps₂).receipt ∧
      (sdLoop rng₁ lines fuel i st ps₁).ctr = (sdLoop rng₂ lines fuel i st ps₂).ctr := by
  induction fuel with
  | zero => exact fun i st ps₁ ps₂ h hc => ⟨h, hc⟩
  | succ fuel ih =>
    intro i st ps₁ ps₂ h hc
    unfold sdLoop
    split
    · try dsimp only
      have hs := sdStep_erase rng₁ rng₂ lines i (jsTrim (lines.getD i "")) st ps₁ ps₂ h hc
      rw [hs.1]
      exact ih (i + 1) _ _ _ hs.2.1 hs.2.2
    · exact ⟨h, hc⟩

/-- `extractStructuredData` preserves the erased relation. -/
theorem extractStructuredData_erase (rng₁ rng₂ : Rng) (lines : List String)
    (ps₁ ps₂ : PState)
    (h : eraseR ps₁.receipt = eraseR ps₂.receipt) (hc : ps₁.ctr = ps₂.ctr) :
    eraseR (extractStructuredData rng₁ lines ps₁).receipt =
      eraseR (extractStructuredData rng₂ lines ps₂).receipt ∧
    (extractStructuredData rng₁ lines ps₁).ctr =
      (extractStructuredData rng₂ lines ps₂).ctr :=
  sdLoop_erase rng₁ rng₂ lines (lines.length + 1) 0 initSD ps₁ ps₂ h hc

/-- One `extractLineData` line preserves the erased relation. -/
theorem processLine_erase (rng₁ rng₂ : Rng) (line : String) (ps₁ ps₂ : PState)
    (h : eraseR ps₁.receipt = eraseR ps₂.receipt) (hc : ps₁.ctr = ps₂.ctr) :
    eraseR (processLine rng₁ line ps₁).receipt =
      eraseR (processLine rng₂ line ps₂).receipt ∧
    (processLine rng₁ line ps₁).ctr = (processLine rng₂ line ps₂).ctr := by
  obtain ⟨hm, hs, ht, hp, hca, hf, hl, hitems⟩ := eraseR_proj h
  have hlen : ps₁.receipt.items.length = ps₂.receipt.items.length := by
    have := congrArg List.length hitems
    simpa using this
  unfold processLine
  try dsimp only
  rw [hm, hs, ht, hp, hca, hf, hl, hc, hlen]
  split
  · exact ⟨h, hc⟩
  · split
    · have hpe := extractItem_erase rng₁ rng₂ ps₂.ctr ps₂.ctr (jsTrim line)
      cases h₁ : extractItem rng₁ ps₂.ctr (jsTrim line) <;>
        cases h₂ : extractItem rng₂ ps₂.ctr (jsTrim line) <;>
        rw [h₁, h₂] at hpe <;> simp at hpe
      · exact ⟨eraseR_mk_congr _ _ _ _ _ _ _ hitems, rfl⟩
      · refine ⟨eraseR_mk_congr _ _ _ _ _ _ _ ?_, rfl⟩
        simp only [List.map_append, List.map_cons, List.map_nil, hitems, hpe]
    · exact ⟨eraseR_mk_congr _ _ _ _ _ _ _ hitems, rfl⟩

/-- The whole per-line pass preserves the erased relation. -/
theorem extractLineData_erase (rng₁ rng₂ : Rng) (lines : List String) :
    ∀ ps₁ ps₂ : PState,
      eraseR ps₁.receipt = eraseR ps₂.receipt → ps₁.ctr = ps₂.ctr →
      eraseR (extractLineData rng₁ lines ps₁).receipt =
        eraseR (extractLineData rng₂ lines ps₂).receipt ∧
      (extractLineData rng₁ lines ps₁).ctr = (extractLineData rng₂ lines ps₂).ctr := by
  induction lines with
  | nil => exact fun ps₁ ps₂ h hc => ⟨h, hc⟩
  | cons l t ih =>
    intro ps₁ ps₂ h hc
    have hp := processLine_erase rng₁ rng₂ l ps₁ ps₂ h hc
    exact ih _ _ hp.1 hp.2

/-- The pattern pass preserves the erased relation. -/
theorem extractPatternData_erase (markdown : String) (ps₁ ps₂ : PState)
    (h : eraseR ps₁.receipt = eraseR ps₂.receipt) (hc : ps₁.ctr = ps₂.ctr) :
    eraseR (extractPatternData markdown ps₁).receipt =
      eraseR (extractPatternData markdown ps₂).receipt ∧
    (extractPatternData markdown ps₁).ctr = (extractPatternData markdown ps₂).ctr := by
  obtain ⟨hm, hs, ht, hp, hca, hf, hl, hitems⟩ := eraseR_proj h
  unfold extractPatternData
  try dsimp only
  rw [hm, hs, ht, hp, hca, hf, hl, hc]
  constructor
  · unfold eraseR
    dsimp only
    rw [hitems]
  · rfl

/-- The fallback pattern loop is random-independent after erasure. -/
theorem fbTryPatterns_erase (rng₁ rng₂ : Rng) (n : Nat) (t : String) :
    ∀ pats : List (List RElem),
      Option.map eraseI (fbTryPatterns rng₁ n t pats) =
        Option.map eraseI (fbTryPatterns rng₂ n t pats) := by
  intro pats
  induction pats with
  | nil => rfl
  | cons p rest ih =>
    unfold fbTryPatterns
    split
    · split
      · exact ih
      · rfl
    · exact ih

/-- The collected fallback items and the final counter are
random-independent after erasure. -/
theorem fbCollect_erase (rng₁ rng₂ : Rng) :
    ∀ (ls : List String) (n : Nat),
      (fbCollect rng₁ ls n).1.map eraseI = (fbCollect rng₂ ls n).1.map eraseI ∧
      (fbCollect rng₁ ls n).2 = (fbCollect rng₂ ls n).2 := by
  intro ls
  induction ls with
  | nil => exact fun n => ⟨rfl, rfl⟩
  | cons l rest ih =>
    intro n
    unfold fbCollect
    try dsimp only
    split
    · exact ih n
    · have hpe := fbTryPatterns_erase rng₁ rng₂ n (jsTrim l) [reFb1, reFb2, reFb3]
      cases h₁ : fbTryPatterns rng₁ n (jsTrim l) [reFb1, reFb2, reFb3] <;>
        cases h₂ : fbTryPatterns rng₂ n (jsTrim l) [reFb1, reFb2, reFb3] <;>
        rw [h₁, h₂] at hpe <;> simp at hpe
      · exact ih n
      · refine ⟨?_, (ih (n + 1)).2⟩
        dsimp only
        simp only [List.map_cons, hpe, (ih (n + 1)).1]

/-- Deduplication respects erasure (it only inspects product names, which
erasure keeps). -/
theorem fbDedup_erase : ∀ (l₁ l₂ : List LineItem) (seen : List String),
    l₁.map eraseI = l₂.map eraseI →
    (fbDedup l₁ seen).map eraseI = (fbDedup l₂ seen).map eraseI := by
  intro l₁
  induction l₁ with
  | nil =>
    intro l₂ seen h
    cases l₂ with
    | nil => rfl
    | cons y t₂ => simp at h
  | cons x t ih =>
    intro l₂ seen h
    cases l₂ with
    | nil => simp at h
    | cons y t₂ =>
      simp only [List.map_cons, List.cons.injEq] at h
      obtain ⟨hxy, ht⟩ := h
      have hname : x.product_name = y.product_name := by
        have h2 := congrArg LineItem.product_name hxy
        simpa [eraseI] using h2
      unfold fbDedup
      rw [hname]
      split
      · exact ih t₂ seen ht
      · simp only [List.map_cons, hxy]
        rw [ih t₂ (jsLowerStr y.product_name :: seen) ht]

/-- `extractItemsFallback` preserves the erased relation. -/
theorem extractItemsFallback_erase (rng₁ rng₂ : Rng) (markdown : String)
    (ps₁ ps₂ : PState)
    (h : eraseR ps₁.receipt = eraseR ps₂.receipt) (hc : ps₁.ctr = ps₂.ctr) :
    eraseR (extractItemsFallback rng₁ markdown ps₁).receipt =
      eraseR (extractItemsFallback rng₂ markdown ps₂).receipt ∧
    (extractItemsFallback rng₁ markdown ps₁).ctr =
      (extractItemsFallback rng₂ markdown ps₂).ctr := by
  have hitems : ps₁.receipt.items.map eraseI = ps₂.receipt.items.map eraseI :=
    (eraseR_proj h).2.2.2.2.2.2.2
  have hfc := fbCollect_erase rng₁ rng₂ (jsSplitChar markdown '\n') ps₂.ctr
  unfold extractItemsFallback
  try dsimp only
  rw [hc]
  constructor
  · refine eraseR_congr h ?_
    simp only [List.map_append, hitems]
    rw [fbDedup_erase _ _ [] hfc.1]
  · exact hfc.2

/-- C8: running the extraction engine twice on the same raw text — with
arbitrary random sources and clocks — yields the same structured receipt
after erasing every item code; every other field of every item and every
scalar field agree between the two runs. -/
theorem C8_two_run_determinism (markdown : String) (rng₁ rng₂ : Rng)
    (clock₁ clock₂ : String) :
    eraseR (parseMarkdown rng₁ clock₁ markdown).receipt =
      eraseR (parseMarkdown rng₂ clock₂ markdown).receipt := by
  unfold parseMarkdown
  try dsimp only
  have h1 := extractStructuredData_erase rng₁ rng₂ (jsSplitChar markdown '\n')
    ⟨initReceipt, 0⟩ ⟨initReceipt, 0⟩ rfl rfl
  have h2 := extractLineData_erase rng₁ rng₂ (jsSplitChar markdown '\n') _ _ h1.1 h1.2
  have h3 := extractPatternData_erase markdown _ _ h2.1 h2.2
  have hlen :
      (extractPatternData markdown
        (extractLineData rng₁ (jsSplitChar markdown '\n')
          (extractStructuredData rng₁ (jsSplitChar markdown '\n')
            ⟨initReceipt, 0⟩))).receipt.items.length =
      (extractPatternData markdown
        (extractLineData rng₂ (jsSplitChar markdown '\n')
          (extractStructuredData rng₂ (jsSplitChar markdown '\n')
            ⟨initReceipt, 0⟩))).receipt.items.length := by
    have := congrArg List.length (congrArg Receipt.items h3.1)
    simpa [eraseR] using this
  rw [hlen]
  split
  · exact (extractItemsFallback_erase rng₁ rng₂ markdown _ _ h3.1 h3.2).1
  · exact h3.1

/-- Witness for C10: the single item extracted from `AA 1,50 €` satisfies
the derivation invariant. -/
theorem C10_unit_price_derived_witness :
    itemPriceCoherent
      { product_name := "AA", quantity := 1, unit_price := some (mkRat 3 2),
        total_price := some (mkRat 3 2), category := none, brand := none,
        item_code := "AAXXXX", line_text := "AA 1,50 €", matched := false } :=
  C10_unit_price_derived rng0 clock0 oneItemText _ (by decide)

end ReceiptProc
